import Mathlib

/-!
# Verification of the dbman schema differ, script generator, parameter
# envelope and release engine

Shallow embedding of the Go sources of `southwinds-io/dbman`:

* `diff` namespace: the schema data model, the comparator
  (src/unnamed/part_002, types in src/unnamed/part_003) and the script
  generator (src/diff/generator.go).  Go maps are embedded as association
  lists iterated in list order; `for key, v := range m` with a conditional
  `append` becomes `List.filterMap`, and Go map lookup (`_, ok := m[k]`)
  becomes `List.lookup`.
* `plugin` namespace: the `Parameter` envelope (src/unnamed/part_012).
  JSON values are embedded as a small inductive; `json.Marshal` /
  `json.Unmarshal` of a `map[string]interface{}` are embedded at the map
  level (Go marshals maps with sorted keys, and for objects with
  string-only leaves unmarshalling inverts marshalling, so the textual
  form is in bijection with the key-sorted association list).
  Go type assertions `x.(T)` are embedded with `Except String`, the
  error being the runtime panic.
* `core` namespace: the release engine actions Create, Deploy and
  Upgrade (src/core/dbman.go), embedded over an explicit environment
  that supplies the provider responses and the script fetcher results;
  provider interactions are recorded as a trace of events.
-/

set_option maxHeartbeats 1000000

namespace diff

/-- `Column` from src/unnamed/part_003 (Go `*string` / `*int` fields
become `Option`). -/
structure Column where
  Name : String
  DataType : String
  IsNullable : Bool
  DefaultValue : Option String
  CharMaxLength : Option Int
  NumericPrecision : Option Int
  NumericScale : Option Int
  OrdinalPosition : Int
  Comment : Option String
deriving DecidableEq, Repr

/-- `Table` from src/unnamed/part_003; the Go `map[string]*Column` is an
association list iterated in list order. -/
structure Table where
  Name : String
  Schema : String
  Columns : List (String × Column)
  Comment : String
deriving DecidableEq, Repr

/-- `Index` from src/unnamed/part_003. -/
structure Index where
  Name : String
  TableName : String
  Schema : String
  Columns : List String
  IsUnique : Bool
  IsPrimary : Bool
  Definition : String
deriving DecidableEq, Repr

/-- `Constraint` from src/unnamed/part_003. -/
structure Constraint where
  Name : String
  TableName : String
  Schema : String
  type : String
  Definition : String
  ForeignTable : Option String
  ForeignColumns : List String
  OnDelete : Option String
  OnUpdate : Option String
deriving DecidableEq, Repr

/-- `Sequence` from src/unnamed/part_003. -/
structure Sequence where
  Name : String
  Schema : String
  StartValue : Int
  Increment : Int
deriving DecidableEq, Repr

/-- `Enum` from src/unnamed/part_003. -/
structure Enum where
  Name : String
  Schema : String
  Values : List String
deriving DecidableEq, Repr

/-- `Function` from src/unnamed/part_003. -/
structure Function where
  Name : String
  Schema : String
  Definition : String
  ReturnType : String
  Language : String
deriving DecidableEq, Repr

/-- `View` from src/unnamed/part_003. -/
structure View where
  Name : String
  Schema : String
  Definition : String
deriving DecidableEq, Repr

/-- `Trigger` from src/unnamed/part_003. -/
structure Trigger where
  Name : String
  TableName : String
  Schema : String
  Timing : String
  Event : String
  Definition : String
deriving DecidableEq, Repr

/-- `DatabaseSchema` from src/unnamed/part_003: all containers are Go
maps keyed by fully-qualified names, embedded as association lists. -/
structure DatabaseSchema where
  Tables : List (String × Table)
  Sequences : List (String × Sequence)
  Enums : List (String × Enum)
  Functions : List (String × Function)
  Indexes : List (String × Index)
  Constraints : List (String × Constraint)
  Views : List (String × View)
  Triggers : List (String × Trigger)
deriving DecidableEq, Repr

/-- `ColumnDiff` from src/unnamed/part_003. -/
structure ColumnDiff where
  Name : String
  OldColumn : Column
  NewColumn : Column
  TypeChanged : Bool
  NullableChanged : Bool
  DefaultChanged : Bool
deriving DecidableEq, Repr

/-- `TableDiff` from src/unnamed/part_003. -/
structure TableDiff where
  TableName : String
  AddedColumns : List Column
  DroppedColumns : List Column
  AlteredColumns : List ColumnDiff
deriving DecidableEq, Repr

/-- `EnumDiff` from src/unnamed/part_003. -/
structure EnumDiff where
  Name : String
  AddedValues : List String
  RemovedValues : List String
deriving DecidableEq, Repr

/-- `FunctionDiff` from src/unnamed/part_003. -/
structure FunctionDiff where
  Name : String
  OldDefinition : String
  NewDefinition : String
deriving DecidableEq, Repr

/-- `ViewDiff` from src/unnamed/part_003. -/
structure ViewDiff where
  Name : String
  OldDefinition : String
  NewDefinition : String
deriving DecidableEq, Repr

/-- `DiffResult` from src/unnamed/part_003. -/
structure DiffResult where
  CreatedTables : List Table := []
  DroppedTables : List Table := []
  AlteredTables : List TableDiff := []
  CreatedIndexes : List Index := []
  DroppedIndexes : List Index := []
  CreatedConstraints : List Constraint := []
  DroppedConstraints : List Constraint := []
  CreatedSequences : List Sequence := []
  DroppedSequences : List Sequence := []
  CreatedEnums : List Enum := []
  DroppedEnums : List Enum := []
  AlteredEnums : List EnumDiff := []
  CreatedFunctions : List Function := []
  DroppedFunctions : List Function := []
  AlteredFunctions : List FunctionDiff := []
  CreatedViews : List View := []
  DroppedViews : List View := []
  CreatedTriggers : List Trigger := []
  DroppedTriggers : List Trigger := []
  AlteredViews : List ViewDiff := []
deriving DecidableEq, Repr

/-- `DiffResult.HasChanges` from src/unnamed/part_003 lines 135-155,
transcribed disjunct by disjunct.  Note: the Go function tests the 19
buckets listed there; `AlteredEnums` is not among them. -/
def hasChanges (d : DiffResult) : Bool :=
  decide (0 < d.CreatedTables.length) ||
  decide (0 < d.DroppedTables.length) ||
  decide (0 < d.AlteredTables.length) ||
  decide (0 < d.CreatedIndexes.length) ||
  decide (0 < d.DroppedIndexes.length) ||
  decide (0 < d.CreatedConstraints.length) ||
  decide (0 < d.DroppedConstraints.length) ||
  decide (0 < d.CreatedViews.length) ||
  decide (0 < d.DroppedViews.length) ||
  decide (0 < d.AlteredViews.length) ||
  decide (0 < d.CreatedFunctions.length) ||
  decide (0 < d.DroppedFunctions.length) ||
  decide (0 < d.AlteredFunctions.length) ||
  decide (0 < d.CreatedTriggers.length) ||
  decide (0 < d.DroppedTriggers.length) ||
  decide (0 < d.CreatedEnums.length) ||
  decide (0 < d.DroppedEnums.length) ||
  decide (0 < d.CreatedSequences.length) ||
  decide (0 < d.DroppedSequences.length)

/-- `compareNullableStrings` from src/unnamed/part_002. -/
def compareNullableStrings (a b : Option String) : Bool :=
  match a, b with
  | none, none => true
  | none, some _ => false
  | some _, none => false
  | some x, some y => x == y

/-- `Comparator.compareColumns` from src/unnamed/part_002: returns
`none` when no flag is raised. -/
def compareColumns (source target : Column) : Option ColumnDiff :=
  let typeChanged := source.DataType != target.DataType
  let nullableChanged := source.IsNullable != target.IsNullable
  let defaultChanged := !compareNullableStrings source.DefaultValue target.DefaultValue
  if typeChanged || nullableChanged || defaultChanged then
    some { Name := target.Name, OldColumn := source, NewColumn := target,
           TypeChanged := typeChanged, NullableChanged := nullableChanged,
           DefaultChanged := defaultChanged }
  else none

/-- `Comparator.compareTableStructure` from src/unnamed/part_002. -/
def compareTableStructure (source target : Table) : Option TableDiff :=
  let added := target.Columns.filterMap fun kv =>
    if (source.Columns.lookup kv.1).isSome then none else some kv.2
  let dropped := source.Columns.filterMap fun kv =>
    if (target.Columns.lookup kv.1).isSome then none else some kv.2
  let altered := source.Columns.filterMap fun kv =>
    (target.Columns.lookup kv.1).bind fun tc => compareColumns kv.2 tc
  if added.isEmpty && dropped.isEmpty && altered.isEmpty then none
  else some { TableName := target.Name, AddedColumns := added,
              DroppedColumns := dropped, AlteredColumns := altered }

/-- `Comparator.compareEnumValues` from src/unnamed/part_002: set
difference on value labels in declaration order. -/
def compareEnumValues (source target : Enum) : Option EnumDiff :=
  let addedV := target.Values.filter fun v => !source.Values.contains v
  let removedV := source.Values.filter fun v => !target.Values.contains v
  if addedV.isEmpty && removedV.isEmpty then none
  else some { Name := target.Name, AddedValues := addedV, RemovedValues := removedV }

/-- Keys present in the target map but not in the source map
(the created bucket of each compare function in src/unnamed/part_002). -/
def createdOf {α : Type} (source target : List (String × α)) : List α :=
  target.filterMap fun kv =>
    if (source.lookup kv.1).isSome then none else some kv.2

/-- `Comparator.Compare` from src/unnamed/part_002 lines 92-105,
assembling the result of the eight per-class comparisons. -/
def Compare (source target : DatabaseSchema) : DiffResult :=
  { CreatedTables := createdOf source.Tables target.Tables
    DroppedTables := createdOf target.Tables source.Tables
    AlteredTables := source.Tables.filterMap fun kv =>
      (target.Tables.lookup kv.1).bind fun t => compareTableStructure kv.2 t
    CreatedIndexes := (createdOf source.Indexes target.Indexes).filter
      fun i => !i.IsPrimary
    DroppedIndexes := (createdOf target.Indexes source.Indexes).filter
      fun i => !i.IsPrimary
    CreatedConstraints := createdOf source.Constraints target.Constraints
    DroppedConstraints := createdOf target.Constraints source.Constraints
    CreatedSequences := createdOf source.Sequences target.Sequences
    DroppedSequences := createdOf target.Sequences source.Sequences
    CreatedEnums := createdOf source.Enums target.Enums
    DroppedEnums := createdOf target.Enums source.Enums
    AlteredEnums := source.Enums.filterMap fun kv =>
      (target.Enums.lookup kv.1).bind fun t => compareEnumValues kv.2 t
    CreatedFunctions := createdOf source.Functions target.Functions
    DroppedFunctions := createdOf target.Functions source.Functions
    AlteredFunctions := source.Functions.filterMap fun kv =>
      (target.Functions.lookup kv.1).bind fun t =>
        if kv.2.Definition != t.Definition then
          some { Name := t.Name, OldDefinition := kv.2.Definition,
                 NewDefinition := t.Definition }
        else none
    CreatedViews := createdOf source.Views target.Views
    DroppedViews := createdOf target.Views source.Views
    AlteredViews := source.Views.filterMap fun kv =>
      (target.Views.lookup kv.1).bind fun t =>
        if kv.2.Definition != t.Definition then
          some { Name := t.Name, OldDefinition := kv.2.Definition,
                 NewDefinition := t.Definition }
        else none
    CreatedTriggers := createdOf source.Triggers target.Triggers
    DroppedTriggers := createdOf target.Triggers source.Triggers }

/-- Well-formedness of a snapshot: map keys are unique per container
(the spec's invariant "keys unique per container"), for the containers
whose comparison re-looks-up an entry by its own key. -/
def DatabaseSchema.wf (s : DatabaseSchema) : Prop :=
  (s.Tables.map Prod.fst).Nodup ∧
  (∀ kv ∈ s.Tables, ((kv.2 : Table).Columns.map Prod.fst).Nodup) ∧
  (s.Enums.map Prod.fst).Nodup ∧
  (s.Functions.map Prod.fst).Nodup ∧
  (s.Views.map Prod.fst).Nodup

instance (s : DatabaseSchema) : Decidable s.wf := by
  unfold DatabaseSchema.wf; infer_instance

/-- `Generator` from src/diff/generator.go. -/
structure Generator where
  schema : String
deriving DecidableEq, Repr

/-- `NewGenerator` from src/diff/generator.go lines 14-20: an empty
schema name is replaced by `public`. -/
def NewGenerator (schema : String) : Generator :=
  if schema = "" then { schema := "public" } else { schema := schema }

/-- The mutable state threaded through the generator: the two string
builders (`upBuilder`, `downBuilder`) and the `Warnings`/`HasBreaking`
fields of the `GeneratedScript` under construction. -/
structure GenState where
  up : String
  down : String
  warnings : List String
  hasBreaking : Bool
deriving DecidableEq, Repr

/-- `Generator.formatColumnType` from src/diff/generator.go. -/
def formatColumnType (col : Column) : String :=
  match col.CharMaxLength with
  | some l => col.DataType ++ "(" ++ toString l ++ ")"
  | none =>
    match col.NumericPrecision, col.NumericScale with
    | some p, some s =>
        col.DataType ++ "(" ++ toString p ++ "," ++ toString s ++ ")"
    | some p, none => col.DataType ++ "(" ++ toString p ++ ")"
    | none, _ => col.DataType

/-- The enum value list rendering of `generateEnums`: one quoted value
per line, comma after every value but the last. -/
def enumValuesSql : List String → String
  | [] => ""
  | [v] => "    \x27" ++ v ++ "\x27\n"
  | v :: w :: vs => "    \x27" ++ v ++ "\x27,\n" ++ enumValuesSql (w :: vs)

/-- The created-enums loop body of `generateEnums`. -/
def enumCreateStep (g : Generator) (st : GenState) (e : Enum) : GenState :=
  { st with
    up := st.up ++ "CREATE TYPE " ++ g.schema ++ "." ++ e.Name ++
      " AS ENUM (\n" ++ enumValuesSql e.Values ++ ");\n\n"
    down := st.down ++ "DROP TYPE IF EXISTS " ++ g.schema ++ "." ++
      e.Name ++ ";\n\n" }

/-- The altered-enums loop body of `generateEnums`: added values become
`ALTER TYPE ... ADD VALUE`; removed values raise a warning and set
`HasBreaking`. -/
def enumAlterStep (g : Generator) (st : GenState) (ed : EnumDiff) : GenState :=
  let st1 := ed.AddedValues.foldl (fun s v =>
    { s with up := s.up ++ "ALTER TYPE " ++ g.schema ++ "." ++ ed.Name ++
        " ADD VALUE \x27" ++ v ++ "\x27;\n" }) st
  let st2 :=
    if 0 < ed.RemovedValues.length then
      { st1 with
        warnings := st1.warnings ++
          ["Cannot automatically remove enum values from " ++ ed.Name ++
           ". Manual intervention required."]
        hasBreaking := true }
    else st1
  { st2 with up := st2.up ++ "\n" }

/-- The dropped-enums loop body of `generateEnums`. -/
def enumDropStep (g : Generator) (st : GenState) (e : Enum) : GenState :=
  { st with
    up := st.up ++ "DROP TYPE IF EXISTS " ++ g.schema ++ "." ++ e.Name ++ ";\n\n"
    down := st.down ++ "CREATE TYPE " ++ g.schema ++ "." ++ e.Name ++
      " AS ENUM (\n" ++ enumValuesSql e.Values ++ ");\n\n" }

/-- `Generator.generateEnums` from src/diff/generator.go. -/
def generateEnums (g : Generator) (d : DiffResult) (st : GenState) : GenState :=
  let st := d.CreatedEnums.foldl (enumCreateStep g) st
  let st := d.AlteredEnums.foldl (enumAlterStep g) st
  d.DroppedEnums.foldl (enumDropStep g) st

/-- The created-sequences loop body of `generateSequences`. -/
def seqCreateStep (g : Generator) (st : GenState) (sq : Sequence) : GenState :=
  { st with
    up := st.up ++ "CREATE SEQUENCE " ++ g.schema ++ "." ++ sq.Name ++
      " START WITH " ++ toString sq.StartValue ++ " INCREMENT BY " ++
      toString sq.Increment ++ ";\n\n"
    down := st.down ++ "DROP SEQUENCE IF EXISTS " ++ g.schema ++ "." ++
      sq.Name ++ ";\n\n" }

/-- The dropped-sequences loop body of `generateSequences`. -/
def seqDropStep (g : Generator) (st : GenState) (sq : Sequence) : GenState :=
  { st with
    up := st.up ++ "DROP SEQUENCE IF EXISTS " ++ g.schema ++ "." ++
      sq.Name ++ ";\n\n"
    down := st.down ++ "CREATE SEQUENCE " ++ g.schema ++ "." ++ sq.Name ++
      " START WITH " ++ toString sq.StartValue ++ " INCREMENT BY " ++
      toString sq.Increment ++ ";\n\n" }

/-- `Generator.generateSequences` from src/diff/generator.go. -/
def generateSequences (g : Generator) (d : DiffResult) (st : GenState) : GenState :=
  let st := d.CreatedSequences.foldl (seqCreateStep g) st
  d.DroppedSequences.foldl (seqDropStep g) st

/-- Insertion step of the ordinal-position sort used by the created-tables
branch of `generateTables`. -/
def insertByOrdinal (c : Column) : List Column → List Column
  | [] => [c]
  | d :: ds =>
    if c.OrdinalPosition ≤ d.OrdinalPosition then c :: d :: ds
    else d :: insertByOrdinal c ds

/-- The in-place swap sort of `generateTables`: columns ordered by
ascending `OrdinalPosition` before rendering `CREATE TABLE`. -/
def sortByOrdinal : List Column → List Column
  | [] => []
  | c :: cs => insertByOrdinal c (sortByOrdinal cs)

/-- One rendered column of a `CREATE TABLE` statement (name, type,
`NOT NULL` when not nullable, `DEFAULT` when present). -/
def createColumnText (col : Column) : String :=
  "    " ++ col.Name ++ " " ++ formatColumnType col ++
  (if col.IsNullable then "" else " NOT NULL") ++
  (match col.DefaultValue with
   | some dv => " DEFAULT " ++ dv
   | none => "")

/-- The column list rendering of `CREATE TABLE`: comma after every
column but the last. -/
def createColumnsSql : List Column → String
  | [] => ""
  | [c] => createColumnText c ++ "\n"
  | c :: d :: cs => createColumnText c ++ ",\n" ++ createColumnsSql (d :: cs)

/-- The created-tables loop body of `generateTables`. -/
def tableCreateStep (g : Generator) (st : GenState) (t : Table) : GenState :=
  let columns := sortByOrdinal (t.Columns.map Prod.snd)
  { st with
    up := st.up ++ "CREATE TABLE " ++ g.schema ++ "." ++ t.Name ++ " (\n" ++
      createColumnsSql columns ++ ");\n\n"
    down := st.down ++ "DROP TABLE IF EXISTS " ++ g.schema ++ "." ++
      t.Name ++ " CASCADE;\n\n" }

/-- The added-columns loop body of the altered-tables branch. -/
def addColumnStep (g : Generator) (tn : String) (st : GenState) (col : Column) :
    GenState :=
  { st with
    up := st.up ++ "ALTER TABLE " ++ g.schema ++ "." ++ tn ++
      " ADD COLUMN " ++ col.Name ++ " " ++ formatColumnType col ++
      (if col.IsNullable then "" else " NOT NULL") ++
      (match col.DefaultValue with
       | some dv => " DEFAULT " ++ dv
       | none => "") ++ ";\n"
    down := st.down ++ "ALTER TABLE " ++ g.schema ++ "." ++ tn ++
      " DROP COLUMN IF EXISTS " ++ col.Name ++ ";\n" }

/-- The dropped-columns loop body of the altered-tables branch: emits the
drop, a data-loss warning and sets `HasBreaking`. -/
def dropColumnStep (g : Generator) (tn : String) (st : GenState) (col : Column) :
    GenState :=
  { st with
    up := st.up ++ "ALTER TABLE " ++ g.schema ++ "." ++ tn ++
      " DROP COLUMN IF EXISTS " ++ col.Name ++ ";\n"
    warnings := st.warnings ++
      ["Dropping column " ++ tn ++ "." ++ col.Name ++ " will result in data loss"]
    hasBreaking := true
    down := st.down ++ "ALTER TABLE " ++ g.schema ++ "." ++ tn ++
      " ADD COLUMN " ++ col.Name ++ " " ++ formatColumnType col ++
      (if col.IsNullable then "" else " NOT NULL") ++
      (match col.DefaultValue with
       | some dv => " DEFAULT " ++ dv
       | none => "") ++ ";\n" }

/-- The altered-columns loop body of the altered-tables branch: type
change and NOT-NULL tightening append warnings (the Go code does not set
`HasBreaking` in either branch); default changes emit SET/DROP DEFAULT. -/
def alterColumnStep (g : Generator) (tn : String) (st : GenState)
    (cd : ColumnDiff) : GenState :=
  let st :=
    if cd.TypeChanged then
      { st with
        up := st.up ++ "ALTER TABLE " ++ g.schema ++ "." ++ tn ++
          " ALTER COLUMN " ++ cd.Name ++ " TYPE " ++
          formatColumnType cd.NewColumn ++ ";\n"
        down := st.down ++ "ALTER TABLE " ++ g.schema ++ "." ++ tn ++
          " ALTER COLUMN " ++ cd.Name ++ " TYPE " ++
          formatColumnType cd.OldColumn ++ ";\n"
        warnings := st.warnings ++
          ["Type change on " ++ tn ++ "." ++ cd.Name ++
           " may cause data loss or conversion errors"] }
    else st
  let st :=
    if cd.NullableChanged then
      if cd.NewColumn.IsNullable then
        { st with
          up := st.up ++ "ALTER TABLE " ++ g.schema ++ "." ++ tn ++
            " ALTER COLUMN " ++ cd.Name ++ " DROP NOT NULL;\n"
          down := st.down ++ "ALTER TABLE " ++ g.schema ++ "." ++ tn ++
            " ALTER COLUMN " ++ cd.Name ++ " SET NOT NULL;\n" }
      else
        { st with
          up := st.up ++ "ALTER TABLE " ++ g.schema ++ "." ++ tn ++
            " ALTER COLUMN " ++ cd.Name ++ " SET NOT NULL;\n"
          down := st.down ++ "ALTER TABLE " ++ g.schema ++ "." ++ tn ++
            " ALTER COLUMN " ++ cd.Name ++ " DROP NOT NULL;\n"
          warnings := st.warnings ++
            ["Setting NOT NULL on " ++ tn ++ "." ++ cd.Name ++
             " may fail if existing NULL values exist"] }
    else st
  if cd.DefaultChanged then
    let st :=
      match cd.NewColumn.DefaultValue with
      | some dv =>
        { st with up := st.up ++ "ALTER TABLE " ++ g.schema ++ "." ++ tn ++
            " ALTER COLUMN " ++ cd.Name ++ " SET DEFAULT " ++ dv ++ ";\n" }
      | none =>
        { st with up := st.up ++ "ALTER TABLE " ++ g.schema ++ "." ++ tn ++
            " ALTER COLUMN " ++ cd.Name ++ " DROP DEFAULT;\n" }
    match cd.OldColumn.DefaultValue with
    | some dv =>
      { st with down := st.down ++ "ALTER TABLE " ++ g.schema ++ "." ++ tn ++
          " ALTER COLUMN " ++ cd.Name ++ " SET DEFAULT " ++ dv ++ ";\n" }
    | none =>
      { st with down := st.down ++ "ALTER TABLE " ++ g.schema ++ "." ++ tn ++
          " ALTER COLUMN " ++ cd.Name ++ " DROP DEFAULT;\n" }
  else st

/-- The altered-tables loop body of `generateTables`. -/
def tableAlterStep (g : Generator) (st : GenState) (td : TableDiff) : GenState :=
  let st := td.AddedColumns.foldl (addColumnStep g td.TableName) st
  let st := td.DroppedColumns.foldl (dropColumnStep g td.TableName) st
  let st := td.AlteredColumns.foldl (alterColumnStep g td.TableName) st
  { st with up := st.up ++ "\n", down := st.down ++ "\n" }

/-- The dropped-tables loop body of `generateTables`: emits the drop, a
data-loss warning, sets `HasBreaking`, and a placeholder down script. -/
def tableDropStep (g : Generator) (st : GenState) (t : Table) : GenState :=
  { st with
    up := st.up ++ "DROP TABLE IF EXISTS " ++ g.schema ++ "." ++ t.Name ++
      " CASCADE;\n\n"
    warnings := st.warnings ++
      ["Dropping table " ++ t.Name ++ " will result in complete data loss"]
    hasBreaking := true
    down := st.down ++ "-- TODO: Recreate table " ++ g.schema ++ "." ++
      t.Name ++ " with all columns and data\n\n" }

/-- `Generator.generateTables` from src/diff/generator.go lines 128-304. -/
def generateTables (g : Generator) (d : DiffResult) (st : GenState) : GenState :=
  let st := d.CreatedTables.foldl (tableCreateStep g) st
  let st := d.AlteredTables.foldl (tableAlterStep g) st
  d.DroppedTables.foldl (tableDropStep g) st

/-- The blank-line append after a non-empty statement group, forward
script only. -/
def maybeNlUp (cond : Bool) (st : GenState) : GenState :=
  if cond then { st with up := st.up ++ "\n" } else st

/-- The blank-line append after a non-empty statement group, reverse
script only. -/
def maybeNlDown (cond : Bool) (st : GenState) : GenState :=
  if cond then { st with down := st.down ++ "\n" } else st

/-- The blank-line append after a non-empty statement group, both
scripts. -/
def maybeNlBoth (cond : Bool) (st : GenState) : GenState :=
  if cond then { st with up := st.up ++ "\n", down := st.down ++ "\n" } else st

/-- The dropped-constraints forward loop body of `generateConstraints`. -/
def conDropStep (g : Generator) (st : GenState) (c : Constraint) : GenState :=
  { st with up := st.up ++ "ALTER TABLE " ++ g.schema ++ "." ++ c.TableName ++
      " DROP CONSTRAINT IF EXISTS " ++ c.Name ++ ";\n" }

/-- The created-constraints loop body of `generateConstraints`. -/
def conCreateStep (g : Generator) (st : GenState) (c : Constraint) : GenState :=
  { st with
    up := st.up ++ "ALTER TABLE " ++ g.schema ++ "." ++ c.TableName ++
      " ADD CONSTRAINT " ++ c.Name ++ " " ++ c.Definition ++ ";\n"
    down := st.down ++ "ALTER TABLE " ++ g.schema ++ "." ++ c.TableName ++
      " DROP CONSTRAINT IF EXISTS " ++ c.Name ++ ";\n" }

/-- The dropped-constraints reverse loop body of `generateConstraints`. -/
def conRecreateStep (g : Generator) (st : GenState) (c : Constraint) : GenState :=
  { st with down := st.down ++ "ALTER TABLE " ++ g.schema ++ "." ++
      c.TableName ++ " ADD CONSTRAINT " ++ c.Name ++ " " ++
      c.Definition ++ ";\n" }

/-- `Generator.generateConstraints` from src/diff/generator.go. -/
def generateConstraints (g : Generator) (d : DiffResult) (st : GenState) :
    GenState :=
  let st := d.DroppedConstraints.foldl (conDropStep g) st
  let st := maybeNlUp (decide (0 < d.DroppedConstraints.length)) st
  let st := d.CreatedConstraints.foldl (conCreateStep g) st
  let st := maybeNlBoth (decide (0 < d.CreatedConstraints.length)) st
  let st := d.DroppedConstraints.foldl (conRecreateStep g) st
  maybeNlDown (decide (0 < d.DroppedConstraints.length)) st

/-- The created-indexes loop body of `generateIndexes`. -/
def idxCreateStep (g : Generator) (st : GenState) (i : Index) : GenState :=
  { st with
    up := st.up ++ i.Definition ++ ";\n"
    down := st.down ++ "DROP INDEX IF EXISTS " ++ g.schema ++ "." ++
      i.Name ++ ";\n" }

/-- The dropped-indexes loop body of `generateIndexes`. -/
def idxDropStep (g : Generator) (st : GenState) (i : Index) : GenState :=
  { st with
    up := st.up ++ "DROP INDEX IF EXISTS " ++ g.schema ++ "." ++
      i.Name ++ ";\n"
    down := st.down ++ i.Definition ++ ";\n" }

/-- `Generator.generateIndexes` from src/diff/generator.go. -/
def generateIndexes (g : Generator) (d : DiffResult) (st : GenState) : GenState :=
  let st := d.CreatedIndexes.foldl (idxCreateStep g) st
  let st := maybeNlBoth (decide (0 < d.CreatedIndexes.length)) st
  let st := d.DroppedIndexes.foldl (idxDropStep g) st
  maybeNlBoth (decide (0 < d.DroppedIndexes.length)) st

/-- The created-functions loop body of `generateFunctions`. -/
def funCreateStep (g : Generator) (st : GenState) (f : Function) : GenState :=
  { st with
    up := st.up ++ f.Definition ++ ";\n\n"
    down := st.down ++ "DROP FUNCTION IF EXISTS " ++ g.schema ++ "." ++
      f.Name ++ ";\n\n" }

/-- The altered-functions loop body of `generateFunctions`. -/
def funAlterStep (st : GenState) (fd : FunctionDiff) : GenState :=
  { st with
    up := st.up ++ "-- Replacing function " ++ fd.Name ++ "\n" ++
      fd.NewDefinition ++ ";\n\n"
    down := st.down ++ "-- Restoring function " ++ fd.Name ++ "\n" ++
      fd.OldDefinition ++ ";\n\n" }

/-- The dropped-functions loop body of `generateFunctions`. -/
def funDropStep (g : Generator) (st : GenState) (f : Function) : GenState :=
  { st with
    up := st.up ++ "DROP FUNCTION IF EXISTS " ++ g.schema ++ "." ++
      f.Name ++ ";\n\n"
    down := st.down ++ f.Definition ++ ";\n\n" }

/-- `Generator.generateFunctions` from src/diff/generator.go. -/
def generateFunctions (g : Generator) (d : DiffResult) (st : GenState) :
    GenState :=
  let st := d.CreatedFunctions.foldl (funCreateStep g) st
  let st := d.AlteredFunctions.foldl funAlterStep st
  d.DroppedFunctions.foldl (funDropStep g) st

/-- The created-views loop body of `generateViews`. -/
def viewCreateStep (g : Generator) (st : GenState) (v : View) : GenState :=
  { st with
    up := st.up ++ "CREATE VIEW " ++ g.schema ++ "." ++ v.Name ++ " AS\n" ++
      v.Definition ++ ";\n\n"
    down := st.down ++ "DROP VIEW IF EXISTS " ++ g.schema ++ "." ++
      v.Name ++ ";\n\n" }

/-- The altered-views loop body of `generateViews`. -/
def viewAlterStep (g : Generator) (st : GenState) (vd : ViewDiff) : GenState :=
  { st with
    up := st.up ++ "CREATE OR REPLACE VIEW " ++ g.schema ++ "." ++
      vd.Name ++ " AS\n" ++ vd.NewDefinition ++ ";\n\n"
    down := st.down ++ "CREATE OR REPLACE VIEW " ++ g.schema ++ "." ++
      vd.Name ++ " AS\n" ++ vd.OldDefinition ++ ";\n\n" }

/-- The dropped-views loop body of `generateViews`. -/
def viewDropStep (g : Generator) (st : GenState) (v : View) : GenState :=
  { st with
    up := st.up ++ "DROP VIEW IF EXISTS " ++ g.schema ++ "." ++
      v.Name ++ ";\n\n"
    down := st.down ++ "CREATE VIEW " ++ g.schema ++ "." ++ v.Name ++
      " AS\n" ++ v.Definition ++ ";\n\n" }

/-- `Generator.generateViews` from src/diff/generator.go. -/
def generateViews (g : Generator) (d : DiffResult) (st : GenState) : GenState :=
  let st := d.CreatedViews.foldl (viewCreateStep g) st
  let st := d.AlteredViews.foldl (viewAlterStep g) st
  d.DroppedViews.foldl (viewDropStep g) st

/-- The created-triggers loop body of `generateTriggers`. -/
def trigCreateStep (g : Generator) (st : GenState) (t : Trigger) : GenState :=
  { st with
    up := st.up ++ t.Definition ++ ";\n\n"
    down := st.down ++ "DROP TRIGGER IF EXISTS " ++ t.Name ++ " ON " ++
      g.schema ++ "." ++ t.TableName ++ ";\n\n" }

/-- The dropped-triggers loop body of `generateTriggers`. -/
def trigDropStep (g : Generator) (st : GenState) (t : Trigger) : GenState :=
  { st with
    up := st.up ++ "DROP TRIGGER IF EXISTS " ++ t.Name ++ " ON " ++
      g.schema ++ "." ++ t.TableName ++ ";\n\n"
    down := st.down ++ t.Definition ++ ";\n\n" }

/-- `Generator.generateTriggers` from src/diff/generator.go. -/
def generateTriggers (g : Generator) (d : DiffResult) (st : GenState) :
    GenState :=
  let st := d.CreatedTriggers.foldl (trigCreateStep g) st
  d.DroppedTriggers.foldl (trigDropStep g) st

/-- `GeneratedScript` from src/unnamed/part_003; `GeneratedAt` carries
the RFC3339 rendering of `time.Now()`, supplied as the `now` argument. -/
structure GeneratedScript where
  UpScript : String
  DownScript : String
  GeneratedAt : String
  Description : String
  HasBreaking : Bool
  Warnings : List String
deriving DecidableEq, Repr

/-- `Generator.Generate` from src/diff/generator.go lines 23-55: header
lines, then the eight class generators in dependency order.  `now` is
the RFC3339-formatted clock value. -/
def Generate (g : Generator) (d : DiffResult) (description now : String) :
    GeneratedScript :=
  let st : GenState :=
    { up := "-- Migration: " ++ description ++ "\n-- Generated: " ++ now ++
        "\n-- UP Migration\n\n"
      down := "-- Migration: " ++ description ++ "\n-- Generated: " ++ now ++
        "\n-- DOWN Migration\n\n"
      warnings := []
      hasBreaking := false }
  let st := generateEnums g d st
  let st := generateSequences g d st
  let st := generateTables g d st
  let st := generateConstraints g d st
  let st := generateIndexes g d st
  let st := generateFunctions g d st
  let st := generateViews g d st
  let st := generateTriggers g d st
  { UpScript := st.up, DownScript := st.down, GeneratedAt := now,
    Description := description, HasBreaking := st.hasBreaking,
    Warnings := st.warnings }

end diff

namespace plugin

/-- The JSON values a decoded `map[string]interface{}` can hold, in the
fragment the envelope uses: strings, nested objects, and `null`. -/
inductive JValue where
  | str (s : String)
  | obj (fields : List (String × JValue))
  | null

/-- Go map read `m[k]` on a decoded JSON object: a missing key and a
stored JSON `null` both yield a nil interface value. -/
def goGet (m : List (String × JValue)) (k : String) : Option JValue :=
  match m.lookup k with
  | none => none
  | some .null => none
  | some v => some v

/-- `Parameter` from src/unnamed/part_012: the `value` map and the `log`
buffer.  Keys of `value` are unique (it is a Go map). -/
structure Parameter where
  value : List (String × JValue)
  log : String

/-- `Version` from the plugin package (type not under src/; its five
string fields are read by `Parameter.GetVersion` in
src/unnamed/part_012).  `Time` keeps the raw string asserted by
`v["time"].(string)` (the parse error is discarded by the source). -/
structure Version where
  AppVersion : String
  DbVersion : String
  Description : String
  Source : String
  Time : String
deriving DecidableEq, Repr

/-- `Parameter.HasError` from src/unnamed/part_012:
`value["error"] != nil`. -/
def HasError (p : Parameter) : Bool :=
  (goGet p.value "error").isSome

/-- `Parameter.Error` from src/unnamed/part_012: when an error value is
present it is type-asserted to `string`; a non-string error value makes
the assertion panic (`Except.error`). -/
def ErrorP (p : Parameter) : Except String (Option String) :=
  match goGet p.value "error" with
  | none => .ok none
  | some (.str s) => .ok (some s)
  | some _ => .error "interface conversion: error is not a string"

/-- `Parameter.GetString` from src/unnamed/part_012: the unchecked
assertion `r.value[key].(string)` panics on a missing key or a
non-string value. -/
def GetString (p : Parameter) (key : String) : Except String String :=
  match goGet p.value key with
  | some (.str s) => .ok s
  | _ => .error "interface conversion: value is not a string"

/-- `Parameter.GetVersion` from src/unnamed/part_012 lines 75-90: the
unchecked assertion `r.value["result"].(map[string]interface{})` panics
when the `result` entry is missing, `null`, or not an object; the field
reads `v["time"].(string)` etc. panic likewise.  The `nil` guard after a
successful assertion can never fire on a decoded JSON object, so the
`none` branch of the result is unreachable from JSON input. -/
def GetVersion (p : Parameter) : Except String (Option Version) :=
  match goGet p.value "result" with
  | some (.obj v) =>
    match goGet v "time" with
    | some (.str t) =>
      match goGet v "appVersion" with
      | some (.str av) =>
        match goGet v "dbVersion" with
        | some (.str dv) =>
          match goGet v "description" with
          | some (.str de) =>
            match goGet v "source" with
            | some (.str so) =>
              .ok (some { AppVersion := av, DbVersion := dv,
                          Description := de, Source := so, Time := t })
            | _ => .error "interface conversion: source is not a string"
          | _ => .error "interface conversion: description is not a string"
        | _ => .error "interface conversion: dbVersion is not a string"
      | _ => .error "interface conversion: appVersion is not a string"
    | _ => .error "interface conversion: time is not a string"
  | _ => .error "interface conversion: result is not a map"

/-- `Parameter.GetLog` from src/unnamed/part_012: returns the empty
string for a missing `log`, trims one trailing newline when the log ends
in a blank line (`strings.HasSuffix(log, "\n\n")` followed by
`strings.TrimSuffix(log, "\n")`, here at the character-list level), and
panics on a non-string `log` value. -/
def GetLog (p : Parameter) : Except String String :=
  match goGet p.value "log" with
  | none => .ok ""
  | some (.str l) =>
    .ok (if ['\n', '\n'].isSuffixOf l.data then String.mk l.data.dropLast else l)
  | some _ => .error "interface conversion: log is not a string"

/-- Go map assignment `m[k] = v`: replaces the binding in place or
appends a new one. -/
def mapSet : List (String × JValue) → String → JValue → List (String × JValue)
  | [], k, v => [(k, v)]
  | (k1, v1) :: rest, k, v =>
    if k1 = k then (k, v) :: rest else (k1, v1) :: mapSet rest k v

/-- Whether every top-level value of the map is a string leaf (the
envelopes the round-trip claim quantifies over). -/
def stringLeafObj (m : List (String × JValue)) : Bool :=
  m.all fun kv =>
    match kv.2 with
    | .str _ => true
    | _ => false

/-- Key order used by `json.Marshal` on a `map[string]interface{}`:
ascending key strings. -/
def keyLE (a b : String × JValue) : Prop := a.1 ≤ b.1

instance : DecidableRel keyLE := fun a b =>
  inferInstanceAs (Decidable (a.1 ≤ b.1))

instance : IsTotal (String × JValue) keyLE :=
  ⟨fun a b => le_total a.1 b.1⟩

instance : IsTrans (String × JValue) keyLE :=
  ⟨fun _ _ _ h1 h2 => le_trans h1 h2⟩

/-- `Parameter.ToString` from src/unnamed/part_012 lines 120-127,
embedded at the wire level: the method stores the log buffer under
`"log"` in the value map and marshals the map.  Go marshals map keys in
sorted order, and for string-leaf objects unmarshalling inverts
marshalling, so the key-sorted association list is a faithful stand-in
for the produced text: two envelopes marshal to the same text iff their
key-sorted maps are equal. -/
def ToStringWire (p : Parameter) : List (String × JValue) :=
  List.insertionSort keyLE (mapSet p.value "log" (.str p.log))

/-- `NewParameterFromJSON` from src/unnamed/part_012 lines 34-41 with
`FromJSON` (lines 139-144), at the wire level: the decoded map becomes
the value map and the log buffer starts empty. -/
def FromJSONWire (m : List (String × JValue)) : Parameter :=
  { value := m, log := "" }

/-- `envelope.fromString(envelope.toString(e))`: parse the textual form
produced by serializing `e`. -/
def roundTrip (p : Parameter) : Parameter :=
  FromJSONWire (ToStringWire p)

end plugin

namespace core

open plugin

/-- A provider interaction performed by the engine: a `RunCommand` call
(identified by the command name) or a `SetVersion` call (the four
strings of the version-history row built by `setDbVersion`). -/
inductive Event where
  | runCommand (name : String)
  | setVersion (appVersion dbVersion description source : String)
deriving DecidableEq, Repr

/-- How an engine action finished: normally, with a Go `error`, or with
a runtime panic. -/
inductive GoResult where
  | ok
  | fail (msg : String)
  | panic (msg : String)
deriving DecidableEq, Repr

/-- The observable outcome of an engine action: the log buffer it
returns, the provider write calls it made, and how it finished. -/
structure ActionOut where
  log : String
  trace : List Event
  res : GoResult
deriving DecidableEq, Repr

/-- Modelled from the spec: `Release{appVersion, dbVersion, path}`
(§3; the type is not under src/, only its use in src/core/dbman.go). -/
structure Release where
  appVersion : String
  dbVersion : String
  path : String
deriving DecidableEq, Repr

/-- Modelled from the spec: the `Plan` is the ordered sequence of
releases (§3; the type is not under src/). -/
structure Plan where
  Releases : List Release
deriving DecidableEq, Repr

/-- Modelled from the spec: `indexOf(appVersion)` over the release plan
(§3; not under src/).  1-based, matching `plan.Releases[i-1]` in
src/core/dbman.go; `0` when the version does not occur. -/
def indexOfAux (v : String) : List Release → Nat → Nat
  | [], _ => 0
  | r :: rs, i => if r.appVersion = v then i else indexOfAux v rs (i + 1)

/-- Modelled from the spec: `upgradeWindow(current, target) →
(currentIx, targetIx)` (§3; not under src/): the 1-based plan indices of
the two versions, `0` for an unknown version, so that an unknown or
backward target fails the `targetIx > currentIx` validity check. -/
def getUpgradeWindow (p : Plan) (current target : String) : Nat × Nat :=
  (indexOfAux current p.Releases 1, indexOfAux target p.Releases 1)

/-- Modelled from the spec: the release `Manifest` (§3; the type is not
under src/).  Command slots are identifier lists resolved by
`GetCommands`; `createCommands`/`deployCommands` stand for
`GetCommands(manifest.Create.Commands)` and
`GetCommands(manifest.Deploy.Commands)`, and `getCommands` resolves a
single named upgrade slot as `GetCommands([]string{name})`. -/
structure Manifest where
  dbVersion : String
  createCommands : List String
  deployCommands : List String
  upgradePrepare : String
  upgradeAlter : String
  upgradeDeploy : String
  getCommands : String → List String

/-- The environment of one engine action: the configuration values it
reads, the envelope the provider returns from `GetVersion`, the fetcher
results (`fetchPlan`, `fetchManifest` with the `Info.Path`,
`fetchCommandContent` failures), and the provider responses to
`RunCommand`/`SetVersion` (command-response envelopes are taken
well-formed: the error and log entries, when present, are strings). -/
structure Env where
  appVersion : String
  dbName : String
  repoURI : String
  getVersionEnv : Parameter
  plan : Except String Plan
  manifests : String → Except String (String × Manifest)
  fetchContentErr : String → Option String
  cmdFails : String → Bool
  cmdErrMsg : String → String
  cmdLog : String → String
  setVersionErr : String → String → String → String → Option String

/-- The content-resolution loop opening `DbMan.runCommands`
(src/core/dbman.go lines 439-449): the first fetch failure aborts
before any command executes. -/
def fetchAll (env : Env) : List String → Option String
  | [] => none
  | c :: cs =>
    match env.fetchContentErr c with
    | some e => some e
    | none => fetchAll env cs

/-- The execution loop of `DbMan.runCommands` (src/core/dbman.go lines
451-461): start marker, `RunCommand` call, then either the failure
marker and abort or the provider log and success marker. -/
def execCmds (env : Env) : List String → String × List Event × Option String
  | [] => ("", [], none)
  | c :: cs =>
    let start := "? I have started execution of the command \x27" ++ c ++ "\x27\n"
    if env.cmdFails c then
      (start ++ "!!! the execution of the command \x27" ++ c ++
        "\x27 has failed: " ++ env.cmdErrMsg c ++ "\n",
       [Event.runCommand c], some (env.cmdErrMsg c))
    else
      let rest := execCmds env cs
      (start ++ env.cmdLog c ++ "? the execution of the command \x27" ++ c ++
        "\x27 has succeeded\n" ++ rest.1,
       Event.runCommand c :: rest.2.1, rest.2.2)

/-- `DbMan.runCommands` from src/core/dbman.go lines 439-463. -/
def runCommands (env : Env) (cmds : List String) :
    String × List Event × Option String :=
  match fetchAll env cmds with
  | some e => ("", [], some e)
  | none => execCmds env cmds

/-- `DbMan.setDbVersion` from src/core/dbman.go lines 242-255: builds
the version-history row (`Source` is `RepoURI/path`), issues the
`SetVersion` call, and reports the envelope error, if any. -/
def setDbVersion (env : Env) (appVer dbVersion description path : String) :
    Event × Option String :=
  let source := env.repoURI ++ "/" ++ path
  (Event.setVersion appVer dbVersion description source,
   env.setVersionErr appVer dbVersion description source)

/-- The AlreadyExists message of `DbMan.Deploy`. -/
def alreadyExistsMsgDeploy (dv av : String) : String :=
  "!!! I have found an existing database version " ++ dv ++
  ", which is for application version " ++ av

/-- `DbMan.Deploy` from src/core/dbman.go lines 207-239.  The opening
check is `if !result.HasError()`: any non-error `GetVersion` envelope is
treated as an existing deployment, and the error message is built from
the unchecked `GetString` assertions on the top-level `dbVersion` and
`appVersion` entries. -/
def Deploy (env : Env) : ActionOut :=
  if !HasError env.getVersionEnv then
    match GetString env.getVersionEnv "dbVersion" with
    | .error p => { log := "", trace := [], res := .panic p }
    | .ok dv =>
      match GetString env.getVersionEnv "appVersion" with
      | .error p => { log := "", trace := [], res := .panic p }
      | .ok av =>
        { log := "", trace := [], res := .fail (alreadyExistsMsgDeploy dv av) }
  else
    match env.manifests env.appVersion with
    | .error e => { log := "", trace := [], res := .fail e }
    | .ok (path, m) =>
      match (runCommands env m.deployCommands).2.2 with
      | some e => { log := (runCommands env m.deployCommands).1
                    trace := (runCommands env m.deployCommands).2.1
                    res := .fail e }
      | none =>
        match (setDbVersion env env.appVersion m.dbVersion
            ("Created database version " ++ m.dbVersion) path).2 with
        | some e =>
          { log := (runCommands env m.deployCommands).1 ++
              "? I am updating the release version history\n"
            trace := (runCommands env m.deployCommands).2.1 ++
              [(setDbVersion env env.appVersion m.dbVersion
                ("Created database version " ++ m.dbVersion) path).1]
            res := .fail e }
        | none =>
          { log := (runCommands env m.deployCommands).1
            trace := (runCommands env m.deployCommands).2.1 ++
              [(setDbVersion env env.appVersion m.dbVersion
                ("Created database version " ++ m.dbVersion) path).1]
            res := .ok }

/-- The AlreadyExists message of `DbMan.Create`. -/
def createExistsMsg (v : Version) : String :=
  "!!! I have found an existing database version " ++ v.DbVersion ++
  ", which is for application version " ++ v.AppVersion ++
  ".\nI cannot create the database because the database is already there!\n" ++
  "If you meant to run this command then ensure there is not any database."

/-- The manifest-fetch-and-run tail of `DbMan.Create`
(src/core/dbman.go lines 192-204). -/
def createRun (env : Env) (log0 : String) : ActionOut :=
  let log1 := log0 ++
    "? I am retrieving the release manifest for application version \x27" ++
    env.appVersion ++ "\x27\n"
  match env.manifests env.appVersion with
  | .error e => { log := log1, trace := [], res := .fail e }
  | .ok (_, m) =>
    let run := runCommands env m.createCommands
    match run.2.2 with
    | some e => { log := log1 ++ run.1, trace := run.2.1, res := .fail e }
    | none => { log := log1 ++ run.1, trace := run.2.1, res := .ok }

/-- `DbMan.Create` from src/core/dbman.go lines 173-205: when the
`GetVersion` envelope has no error the result is parsed with
`Parameter.GetVersion` (whose unchecked assertions may panic) and a
present version is a hard stop; otherwise the create commands run and no
version-history row is written. -/
def Create (env : Env) : ActionOut :=
  let log0 := "? I am checking that the database \x27" ++ env.dbName ++
    "\x27 does not already exist\n"
  let r := env.getVersionEnv
  if !HasError r then
    match GetVersion r with
    | .error p => { log := log0, trace := [], res := .panic p }
    | .ok (some v) => { log := log0, trace := [], res := .fail (createExistsMsg v) }
    | .ok none => createRun env log0
  else createRun env log0

/-- The no-op message of `DbMan.Upgrade` when the target equals the
deployed version. -/
def noopMsg (av : String) : String :=
  "? I have nothing to do: the current version (i.e. " ++ av ++
  ") matches the version deployed\n" ++
  "If you need to upgrade to a different version change the value of the " ++
  "\x27AppVersion\x27 configuration variable\n"

/-- The InvalidUpgrade message of `DbMan.Upgrade`. -/
def cannotUpgradeMsg (target current : String) : String :=
  "!!! I cannot upgrade as target version " ++ target ++
  " is not past the current version " ++ current

/-- The per-release banner of the `DbMan.Upgrade` loop. -/
def applyingMsg (r : Release) : String :=
  "? I am applying manifest for application version " ++ r.appVersion ++
  ", db version " ++ r.dbVersion ++ "\n"

/-- The informational skip when a manifest has no Alter command. -/
def noAlterMsg : String :=
  "? I did not find an Alter command in the manifest, " ++
  "so I am not applying any changes to the schema\n"

/-- The log line written after a successful version-history write. -/
def updatingMsg : String := "? I am updating the release version history\n"

/-- The description of the final target version-history row of
`DbMan.Upgrade`. -/
def targetDesc (fromDb toDb : String) : String :=
  "Upgraded database from version " ++ fromDb ++ " to " ++ toDb

/-- The description of an intermediate version-history row of
`DbMan.Upgrade`. -/
def intermediateDesc (toDb : String) : String :=
  "Updated database schema only to version " ++ toDb

/-- The version-history write shared by the two `setDbVersion` call
sites of the `DbMan.Upgrade` loop body (src/core/dbman.go lines 339-352):
the row is written, a failing write is an early return, a successful one
appends the confirmation log line. -/
def svPart (env : Env) (appVer dbVer desc path : String) (log : String)
    (tr : List Event) : Except ActionOut (String × List Event) :=
  match (setDbVersion env appVer dbVer desc path).2 with
  | some e =>
    .error { log := log
             trace := tr ++ [(setDbVersion env appVer dbVer desc path).1]
             res := .fail e }
  | none =>
    .ok (log ++ updatingMsg, tr ++ [(setDbVersion env appVer dbVer desc path).1])

/-- The `upgrade.prepare` batch run on the current release
(src/core/dbman.go lines 305-313): a command failure is an early
return, otherwise the output is accumulated. -/
def currentPart (env : Env) (m : Manifest) (log : String) (tr : List Event) :
    Except ActionOut (String × List Event) :=
  match (runCommands env (m.getCommands m.upgradePrepare)).2.2 with
  | some e =>
    .error { log := log ++ (runCommands env (m.getCommands m.upgradePrepare)).1
             trace := tr ++ (runCommands env (m.getCommands m.upgradePrepare)).2.1
             res := .fail e }
  | none =>
    .ok (log ++ (runCommands env (m.getCommands m.upgradePrepare)).1,
         tr ++ (runCommands env (m.getCommands m.upgradePrepare)).2.1)

/-- The `upgrade.alter` batch run on a release other than the current
one (src/core/dbman.go lines 317-328): when the slot is named the batch
runs (a failure is an early return), otherwise only the informational
skip line is logged. -/
def alterPart (env : Env) (m : Manifest) (log : String) (tr : List Event) :
    Except ActionOut (String × List Event) :=
  if 0 < m.upgradeAlter.length then
    match (runCommands env (m.getCommands m.upgradeAlter)).2.2 with
    | some e =>
      .error { log := log ++ (runCommands env (m.getCommands m.upgradeAlter)).1
               trace := tr ++ (runCommands env (m.getCommands m.upgradeAlter)).2.1
               res := .fail e }
    | none =>
      .ok (log ++ (runCommands env (m.getCommands m.upgradeAlter)).1,
           tr ++ (runCommands env (m.getCommands m.upgradeAlter)).2.1)
  else .ok (log ++ noAlterMsg, tr)

/-- The `upgrade.deploy` batch and the target version-history write run
on the target release (src/core/dbman.go lines 330-344): the row is
written only after the whole batch has run without error. -/
def targetPart (env : Env) (version : Version) (info : Release)
    (m : Manifest) (log : String) (tr : List Event) :
    Except ActionOut (String × List Event) :=
  match (runCommands env (m.getCommands m.upgradeDeploy)).2.2 with
  | some e =>
    .error { log := log ++ (runCommands env (m.getCommands m.upgradeDeploy)).1
             trace := tr ++ (runCommands env (m.getCommands m.upgradeDeploy)).2.1
             res := .fail e }
  | none =>
    svPart env env.appVersion m.dbVersion
      (targetDesc version.DbVersion m.dbVersion) info.path
      (log ++ (runCommands env (m.getCommands m.upgradeDeploy)).1)
      (tr ++ (runCommands env (m.getCommands m.upgradeDeploy)).2.1)

/-- One iteration of the `DbMan.Upgrade` release loop body
(src/core/dbman.go lines 292-354): `Releases[i-1]` lookup (a panic when
out of range), manifest fetch, then either `upgrade.prepare` on the
current release, or `upgrade.alter` when the slot is named (else the
informational skip), then on the target release `upgrade.deploy`
followed by the target version-history write, and on other releases the
schema-only version-history write; `.error` carries an early return,
`.ok` the accumulated log and trace for the next iteration. -/
def releaseStage (env : Env) (version : Version) (plan : Plan)
    (currentIx targetIx i : Nat) (log : String) (tr : List Event) :
    Except ActionOut (String × List Event) :=
  match i, plan.Releases.get? (i - 1) with
  | 0, _ =>
    .error { log := log, trace := tr
             res := .panic "runtime error: index out of range" }
  | _ + 1, none =>
    .error { log := log, trace := tr
             res := .panic "runtime error: index out of range" }
  | _ + 1, some info =>
    match env.manifests info.appVersion with
    | .error e =>
      .error { log := log ++ applyingMsg info, trace := tr, res := .fail e }
    | .ok (_, m) =>
      if i = currentIx then
        currentPart env m (log ++ applyingMsg info) tr
      else
        match alterPart env m (log ++ applyingMsg info) tr with
        | .error out => .error out
        | .ok (log, tr) =>
          if i = targetIx then targetPart env version info m log tr
          else svPart env info.appVersion m.dbVersion
            (intermediateDesc m.dbVersion) info.path log tr

/-- The release loop of `DbMan.Upgrade` (src/core/dbman.go lines
291-355), over the remaining 1-based plan indices: each iteration is a
`releaseStage`; a stage's early return ends the action. -/
def upgradeLoop (env : Env) (version : Version) (plan : Plan)
    (currentIx targetIx : Nat) :
    List Nat → String → List Event → ActionOut
  | [], log, tr => { log := log, trace := tr, res := .ok }
  | i :: rest, log, tr =>
    match releaseStage env version plan currentIx targetIx i log tr with
    | .error out => out
    | .ok (log, tr) =>
      upgradeLoop env version plan currentIx targetIx rest log tr

/-- `DbMan.Upgrade` from src/core/dbman.go lines 257-357:
`dm.getVersion()` evaluates `result.GetVersion()` (which may panic) and
`result.Error()`; an error envelope aborts, a nil version is
NotDeployed; the plan is fetched; a target equal to the deployed version
is a successful no-op before the upgrade window is computed; an invalid
window aborts; otherwise the loop runs over `[currentIx..targetIx]`. -/
def Upgrade (env : Env) : ActionOut :=
  match GetVersion env.getVersionEnv with
  | .error p => { log := "", trace := [], res := .panic p }
  | .ok vOpt =>
    match ErrorP env.getVersionEnv with
    | .error p => { log := "", trace := [], res := .panic p }
    | .ok (some e) => { log := "", trace := [], res := .fail e }
    | .ok none =>
      match vOpt with
      | none =>
        { log := "", trace := [], res := .fail "!!! the database does not exist\n" }
      | some version =>
        match env.plan with
        | .error e => { log := "", trace := [], res := .fail e }
        | .ok plan =>
          if env.appVersion = version.AppVersion then
            { log := noopMsg version.AppVersion, trace := [], res := .ok }
          else
            if (getUpgradeWindow plan version.AppVersion env.appVersion).2 ≤
                (getUpgradeWindow plan version.AppVersion env.appVersion).1 then
              { log := ""
                trace := []
                res := .fail (cannotUpgradeMsg env.appVersion version.AppVersion) }
            else
              upgradeLoop env version plan
                (getUpgradeWindow plan version.AppVersion env.appVersion).1
                (getUpgradeWindow plan version.AppVersion env.appVersion).2
                (List.range'
                  (getUpgradeWindow plan version.AppVersion env.appVersion).1
                  ((getUpgradeWindow plan version.AppVersion env.appVersion).2 +
                    1 -
                    (getUpgradeWindow plan version.AppVersion env.appVersion).1))
                "" []

/-- An event is clean in `env` when, if it is a provider `RunCommand`
call, the named command executes without error (`SetVersion` events are
clean by definition). -/
def cleanEvent (env : Env) (e : Event) : Prop :=
  ∀ c, e = Event.runCommand c → env.cmdFails c = false

/-- Every event of the list is clean. -/
def okTrace (env : Env) (l : List Event) : Prop := ∀ e ∈ l, cleanEvent env e

/-- The event is a `SetVersion` (version-history) provider call. -/
def isSetVersion (e : Event) : Prop :=
  ∃ a d x s, e = Event.setVersion a d x s

/-- The event is a final target version-history row of an upgrade: a
`SetVersion` call whose description has the `targetDesc` shape. -/
def isTargetRow (e : Event) : Prop :=
  ∃ a d f t s, e = Event.setVersion a d (targetDesc f t) s

/-- No event of the list is a target version-history row. -/
def targetFree (l : List Event) : Prop := ∀ e ∈ l, ¬ isTargetRow e

/-- The classification of the optional final event contributed by one
loop stage to the trace, after an all-clean target-row-free segment `Δ`:
nothing, a single failing command, or a single version-history write —
the latter never a target row on a stage other than `ti`, and on the
target stage directly preceded within `Δ` by the release manifest's full
`upgrade.deploy` batch, all of it clean. -/
def stageTail (env : Env) (p : Plan) (ti i : Nat) (Δ t : List Event) : Prop :=
  t = [] ∨ (∃ c, t = [Event.runCommand c]) ∨
  (∃ e, t = [e] ∧ isSetVersion e ∧
    (i ≠ ti → ¬ isTargetRow e) ∧
    (isTargetRow e →
      ∃ info m Δa, p.Releases.get? (i - 1) = some info ∧
        (∃ pth, env.manifests info.appVersion = .ok (pth, m)) ∧
        Δ = Δa ++ (m.getCommands m.upgradeDeploy).map Event.runCommand ∧
        ∀ c ∈ m.getCommands m.upgradeDeploy, env.cmdFails c = false))

end core

namespace fixtures

open diff plugin core

/-- A snapshot holding one enum `public.color` with values red, green. -/
def enumOnlySource : DatabaseSchema :=
  { Tables := [], Sequences := []
    Enums := [("public.color",
      { Name := "color", Schema := "public", Values := ["red", "green"] })]
    Functions := [], Indexes := [], Constraints := [], Views := []
    Triggers := [] }

/-- The same snapshot with the value blue added to the enum. -/
def enumOnlyTarget : DatabaseSchema :=
  { enumOnlySource with
    Enums := [("public.color",
      { Name := "color", Schema := "public", Values := ["red", "green", "blue"] })] }

/-- An int column at ordinal position 1. -/
def intCol : Column :=
  { Name := "c", DataType := "int", IsNullable := true, DefaultValue := none,
    CharMaxLength := none, NumericPrecision := none, NumericScale := none,
    OrdinalPosition := 1, Comment := none }

/-- The same column with its type changed to bigint. -/
def bigintCol : Column := { intCol with DataType := "bigint" }

/-- The column diff recording only the int-to-bigint type change. -/
def typeChangeColDiff : ColumnDiff :=
  { Name := "c", OldColumn := intCol, NewColumn := bigintCol,
    TypeChanged := true, NullableChanged := false, DefaultChanged := false }

/-- The table diff holding only that altered column. -/
def typeChangeTableDiff : TableDiff :=
  { TableName := "t", AddedColumns := [], DroppedColumns := [],
    AlteredColumns := [typeChangeColDiff] }

/-- A diff result whose only change is the int-to-bigint type change. -/
def typeChangeOnlyDiff : DiffResult :=
  { AlteredTables := [typeChangeTableDiff] }

/-- A second column, dropped in the breaking-changes fixture. -/
def droppedCol : Column := { intCol with Name := "c2" }

/-- A column diff that tightens nullability (sets NOT NULL). -/
def notNullColDiff : ColumnDiff :=
  { Name := "c3", OldColumn := { intCol with Name := "c3" },
    NewColumn := { intCol with Name := "c3", IsNullable := false },
    TypeChanged := false, NullableChanged := true, DefaultChanged := false }

/-- A table diff with one dropped column and two altered columns (type
change and NOT NULL tightening). -/
def breakingTableDiff : TableDiff :=
  { TableName := "t", AddedColumns := [], DroppedColumns := [droppedCol],
    AlteredColumns := [typeChangeColDiff, notNullColDiff] }

/-- The dropped table of the breaking-changes fixture. -/
def droppedTable : Table :=
  { Name := "old", Schema := "public", Columns := [], Comment := "" }

/-- An enum diff that removes the value red. -/
def removedValueEnumDiff : EnumDiff :=
  { Name := "color", AddedValues := [], RemovedValues := ["red"] }

/-- A diff result exercising all five warning sources at once: a dropped
column, a dropped table, a type change, a NOT NULL tightening, and
removed enum values. -/
def allBreakingDiff : DiffResult :=
  { AlteredTables := [breakingTableDiff],
    DroppedTables := [droppedTable],
    AlteredEnums := [removedValueEnumDiff] }

/-- A non-primary index on table t, present only in the target. -/
def plainIndex : Index :=
  { Name := "t_c_idx", TableName := "t", Schema := "public", Columns := ["c"],
    IsUnique := false, IsPrimary := false,
    Definition := "CREATE INDEX t_c_idx ON public.t (c)" }

/-- An envelope that is just a log line (no error, no result). -/
def logOnlyEnvelope : Parameter := { value := [], log := "hello\n" }

/-- A provider `GetVersion` envelope reporting application version v1,
database version 1. -/
def v1VersionEnvelope : Parameter :=
  { value := [("result", JValue.obj
      [("appVersion", JValue.str "v1"), ("dbVersion", JValue.str "1"),
       ("description", JValue.str "d"), ("source", JValue.str "s"),
       ("time", JValue.str "t")])]
    log := "" }

/-- A provider `GetVersion` envelope carrying only an error (the shape a
provider uses to signal an absent version). -/
def noVersionErrorEnvelope : Parameter :=
  { value := [("error", JValue.str "no version table")], log := "" }

/-- A three-release plan v1, v2, v3. -/
def threeReleasePlan : Plan :=
  { Releases := [{ appVersion := "v1", dbVersion := "1", path := "p1" },
                 { appVersion := "v2", dbVersion := "2", path := "p2" },
                 { appVersion := "v3", dbVersion := "3", path := "p3" }] }

/-- A manifest fixture for a release: one command per slot. -/
def testManifest (av : String) : Manifest :=
  { dbVersion := "db-" ++ av, createCommands := ["cre-" ++ av]
    deployCommands := ["dep-" ++ av]
    upgradePrepare := "prep-" ++ av, upgradeAlter := "alt-" ++ av
    upgradeDeploy := "udep-" ++ av
    getCommands := fun n => [n ++ "-c1"] }

/-- An environment whose provider returns an empty `GetVersion` envelope
(no error and no result) and in which every command succeeds. -/
def emptyEnvelopeEnv : Env :=
  { appVersion := "v2", dbName := "db", repoURI := "http://r"
    getVersionEnv := { value := [], log := "" }
    plan := .ok threeReleasePlan
    manifests := fun av => .ok ("path-" ++ av, testManifest av)
    fetchContentErr := fun _ => none
    cmdFails := fun _ => false, cmdErrMsg := fun _ => "fail"
    cmdLog := fun _ => "", setVersionErr := fun _ _ _ _ => none }

/-- The same environment with a provider that reports deployed version
v1 and a target of v3. -/
def upgradeRunEnv : Env :=
  { emptyEnvelopeEnv with appVersion := "v3", getVersionEnv := v1VersionEnvelope }

/-- The upgrade environment with a target equal to the deployed version. -/
def noopUpgradeEnv : Env :=
  { upgradeRunEnv with appVersion := "v1" }

/-- The environment of a deploy onto an empty database: `GetVersion`
reports the absent version through the error entry. -/
def deployOkEnv : Env :=
  { emptyEnvelopeEnv with getVersionEnv := noVersionErrorEnvelope }

end fixtures

namespace diff

theorem lookup_isSome_of_mem {α : Type} {m : List (String × α)} {k : String}
    {v : α} (h : (k, v) ∈ m) : (List.lookup k m).isSome = true := by
  induction m with
  | nil => cases h
  | cons kv rest ih =>
    obtain ⟨k1, v1⟩ := kv
    rcases List.mem_cons.mp h with h1 | h1
    · cases h1
      simp [List.lookup_cons]
    · by_cases hk : k1 = k
      · subst hk
        simp [List.lookup_cons]
      · simpa [List.lookup_cons, beq_false_of_ne (Ne.symm hk)] using ih h1

theorem lookup_eq_of_mem_nodup {α : Type} {m : List (String × α)} {k : String}
    {v : α} (hn : (m.map Prod.fst).Nodup) (h : (k, v) ∈ m) :
    List.lookup k m = some v := by
  induction m with
  | nil => cases h
  | cons kv rest ih =>
    obtain ⟨k1, v1⟩ := kv
    rcases List.mem_cons.mp h with h1 | h1
    · cases h1
      simp [List.lookup_cons]
    · have hk : k1 ≠ k := by
        intro hkk
        subst hkk
        have : k1 ∈ rest.map Prod.fst := List.mem_map.mpr ⟨(k1, v), h1, rfl⟩
        exact (List.nodup_cons.mp (by simpa using hn)).1 this
      simpa [List.lookup_cons, beq_false_of_ne (Ne.symm hk)] using
        ih (List.nodup_cons.mp (by simpa using hn)).2 h1

theorem createdOf_self {α : Type} (m : List (String × α)) :
    createdOf m m = [] := by
  rw [createdOf, List.filterMap_eq_nil_iff]
  intro kv hkv
  rw [lookup_isSome_of_mem (by simpa using hkv : (kv.1, kv.2) ∈ m)]
  rfl

theorem compareColumns_self (c : Column) : compareColumns c c = none := by
  have h1 : compareNullableStrings c.DefaultValue c.DefaultValue = true := by
    cases c.DefaultValue <;> simp [compareNullableStrings]
  simp [compareColumns, h1]

theorem compareTableStructure_self (t : Table)
    (hn : (t.Columns.map Prod.fst).Nodup) :
    compareTableStructure t t = none := by
  have hadd : (t.Columns.filterMap fun kv =>
      if (List.lookup kv.1 t.Columns).isSome then none else some kv.2) = [] := by
    rw [List.filterMap_eq_nil_iff]
    intro kv hkv
    rw [lookup_isSome_of_mem (by simpa using hkv : (kv.1, kv.2) ∈ t.Columns)]
    rfl
  have halt : (t.Columns.filterMap fun kv =>
      (List.lookup kv.1 t.Columns).bind fun tc => compareColumns kv.2 tc) = [] := by
    rw [List.filterMap_eq_nil_iff]
    intro kv hkv
    rw [lookup_eq_of_mem_nodup hn (by simpa using hkv : (kv.1, kv.2) ∈ t.Columns)]
    simp [compareColumns_self]
  simp only [compareTableStructure, hadd, halt]
  simp

theorem compareEnumValues_self (e : Enum) : compareEnumValues e e = none := by
  have h : (e.Values.filter fun v => !e.Values.contains v) = [] := by
    rw [List.filter_eq_nil_iff]
    intro v hv
    simpa using hv
  simp [compareEnumValues, h]

theorem alteredBind_self {α β : Type} (m : List (String × α))
    (f : α → α → Option β) (hn : (m.map Prod.fst).Nodup)
    (hf : ∀ kv ∈ m, f kv.2 kv.2 = none) :
    (m.filterMap fun kv => (List.lookup kv.1 m).bind fun t => f kv.2 t) = [] := by
  rw [List.filterMap_eq_nil_iff]
  intro kv hkv
  rw [lookup_eq_of_mem_nodup hn (by simpa using hkv : (kv.1, kv.2) ∈ m)]
  simp [hf kv hkv]

/-- C7: comparing a well-formed snapshot against itself yields a diff
result in which every created, dropped and altered bucket is empty, and
`HasChanges` is `false`. -/
theorem claim_C7_compare_self_no_changes (S : DatabaseSchema) (hwf : S.wf) :
    Compare S S = ({} : DiffResult) ∧ hasChanges (Compare S S) = false := by
  obtain ⟨hT, hTC, hE, hF, hV⟩ := hwf
  have hAltT : (S.Tables.filterMap fun kv =>
      (List.lookup kv.1 S.Tables).bind fun t => compareTableStructure kv.2 t) = [] :=
    alteredBind_self _ _ hT fun kv hkv => compareTableStructure_self _ (hTC kv hkv)
  have hAltE : (S.Enums.filterMap fun kv =>
      (List.lookup kv.1 S.Enums).bind fun t => compareEnumValues kv.2 t) = [] :=
    alteredBind_self _ _ hE fun kv _ => compareEnumValues_self _
  have hAltF : (S.Functions.filterMap fun kv =>
      (List.lookup kv.1 S.Functions).bind fun t =>
        if kv.2.Definition != t.Definition then
          some ({ Name := t.Name, OldDefinition := kv.2.Definition,
                  NewDefinition := t.Definition } : FunctionDiff)
        else none) = [] :=
    alteredBind_self S.Functions
      (fun a t => if a.Definition != t.Definition then
          some ({ Name := t.Name, OldDefinition := a.Definition,
                  NewDefinition := t.Definition } : FunctionDiff)
        else none) hF (fun kv _ => by simp)
  have hAltV : (S.Views.filterMap fun kv =>
      (List.lookup kv.1 S.Views).bind fun t =>
        if kv.2.Definition != t.Definition then
          some ({ Name := t.Name, OldDefinition := kv.2.Definition,
                  NewDefinition := t.Definition } : ViewDiff)
        else none) = [] :=
    alteredBind_self S.Views
      (fun a t => if a.Definition != t.Definition then
          some ({ Name := t.Name, OldDefinition := a.Definition,
                  NewDefinition := t.Definition } : ViewDiff)
        else none) hV (fun kv _ => by simp)
  have hc : Compare S S = ({} : DiffResult) := by
    simp only [Compare, createdOf_self, hAltT, hAltE, hAltF, hAltV]
    rfl
  exact ⟨hc, by rw [hc]; rfl⟩

/-- Witness for C7 at a concrete snapshot with one table, one enum and
one primary-key index. -/
theorem claim_C7_compare_self_no_changes_witness :
    (Compare
      { Tables := [("public.t",
          { Name := "t", Schema := "public",
            Columns := [("a",
              { Name := "a", DataType := "int", IsNullable := false,
                DefaultValue := none, CharMaxLength := none,
                NumericPrecision := none, NumericScale := none,
                OrdinalPosition := 1, Comment := none })],
            Comment := "" })]
        Sequences := []
        Enums := [("public.color",
          { Name := "color", Schema := "public", Values := ["red", "green"] })]
        Functions := [], Indexes := [], Constraints := [], Views := []
        Triggers := [] }
      { Tables := [("public.t",
          { Name := "t", Schema := "public",
            Columns := [("a",
              { Name := "a", DataType := "int", IsNullable := false,
                DefaultValue := none, CharMaxLength := none,
                NumericPrecision := none, NumericScale := none,
                OrdinalPosition := 1, Comment := none })],
            Comment := "" })]
        Sequences := []
        Enums := [("public.color",
          { Name := "color", Schema := "public", Values := ["red", "green"] })]
        Functions := [], Indexes := [], Constraints := [], Views := []
        Triggers := [] } = ({} : DiffResult)) := by
  exact (claim_C7_compare_self_no_changes _ (by decide)).1

/-- C8: for every pair of snapshots, no index whose `IsPrimary` flag is
set appears in the created or dropped index buckets of the diff
result. -/
theorem claim_C8_no_primary_index_in_diff (A B : DatabaseSchema) (i : Index) :
    (i ∈ (Compare A B).CreatedIndexes → i.IsPrimary = false) ∧
    (i ∈ (Compare A B).DroppedIndexes → i.IsPrimary = false) := by
  constructor
  · intro h
    have h' : i ∈ (createdOf A.Indexes B.Indexes).filter
        (fun j => !j.IsPrimary) := h
    simpa using (List.mem_filter.mp h').2
  · intro h
    have h' : i ∈ (createdOf B.Indexes A.Indexes).filter
        (fun j => !j.IsPrimary) := h
    simpa using (List.mem_filter.mp h').2

/-- Witness for C8: a non-primary index created between two concrete
snapshots is in the created bucket, and the theorem yields that its
`IsPrimary` flag is false. -/
theorem claim_C8_no_primary_index_in_diff_witness :
    fixtures.plainIndex ∈
      (Compare fixtures.enumOnlySource
        { fixtures.enumOnlySource with
          Indexes := [("public.t_c_idx", fixtures.plainIndex)] }).CreatedIndexes ∧
    fixtures.plainIndex.IsPrimary = false := by
  refine ⟨by decide, ?_⟩
  exact (claim_C8_no_primary_index_in_diff fixtures.enumOnlySource
    { fixtures.enumOnlySource with
      Indexes := [("public.t_c_idx", fixtures.plainIndex)] }
    fixtures.plainIndex).1 (by decide)

/-- C1: `HasChanges` does not test the altered-enums bucket.  Comparing
two concrete snapshots that differ only in the values of one enum yields
a diff result whose only non-empty bucket is `AlteredEnums`, and
`hasChanges` returns `false` on it, although the claim (and the
function's own doc comment) requires `true`. -/
theorem claim_C1_hasChanges_misses_altered_enums :
    (Compare fixtures.enumOnlySource fixtures.enumOnlyTarget).AlteredEnums =
      [{ Name := "color", AddedValues := ["blue"], RemovedValues := [] }] ∧
    Compare fixtures.enumOnlySource fixtures.enumOnlyTarget ≠ ({} : DiffResult) ∧
    hasChanges (Compare fixtures.enumOnlySource fixtures.enumOnlyTarget) = false := by
  decide

/-- C10: constructing the script generator with an empty schema name
substitutes the schema `public`: the resulting generator is exactly the
public-schema generator, so every statement it qualifies in the up and
down scripts is qualified with `public`. -/
theorem claim_C10_empty_schema_defaults_to_public :
    (NewGenerator "").schema = "public" ∧
    ∀ (d : DiffResult) (description now : String),
      Generate (NewGenerator "") d description now =
        Generate (NewGenerator "public") d description now := by
  have h : NewGenerator "" = NewGenerator "public" := by decide
  exact ⟨by rw [h]; rfl, fun d de n => by rw [h]⟩

/-- C3 counterexample: on a diff whose only change is a column type
change, the generator appends the type-change warning but leaves
`HasBreaking` false, refuting the claim that every type-change occurrence
sets `hasBreaking`. -/
theorem claim_C3_counterexample :
    (Generate (NewGenerator "s") fixtures.typeChangeOnlyDiff "d" "now").Warnings =
      ["Type change on t.c may cause data loss or conversion errors"] ∧
    (Generate (NewGenerator "s") fixtures.typeChangeOnlyDiff "d" "now").HasBreaking =
      false := by
  constructor
  · rfl
  · rfl

theorem foldl_hb {α : Type} (f : GenState → α → GenState) (p : α → Bool)
    (hf : ∀ st a, (f st a).hasBreaking = (st.hasBreaking || p a)) :
    ∀ (l : List α) (st : GenState),
      (l.foldl f st).hasBreaking = (st.hasBreaking || l.any p) := by
  intro l
  induction l with
  | nil => intro st; simp
  | cons a l ih =>
    intro st
    simp only [List.foldl_cons, List.any_cons, ih, hf, Bool.or_assoc]

theorem foldl_hb_const {α : Type} (f : GenState → α → GenState)
    (hf : ∀ st a, (f st a).hasBreaking = st.hasBreaking) :
    ∀ (l : List α) (st : GenState),
      (l.foldl f st).hasBreaking = st.hasBreaking := by
  intro l
  induction l with
  | nil => intro st; rfl
  | cons a l ih => intro st; rw [List.foldl_cons, ih, hf]

theorem foldl_warn {α : Type} (f : GenState → α → GenState)
    (q : α → List String)
    (hf : ∀ st a, (f st a).warnings = st.warnings ++ q a) :
    ∀ (l : List α) (st : GenState),
      (l.foldl f st).warnings = st.warnings ++ l.flatMap q := by
  intro l
  induction l with
  | nil => intro st; simp
  | cons a l ih =>
    intro st
    rw [List.foldl_cons, List.flatMap_cons, ih, hf, List.append_assoc]

theorem foldl_warn_const {α : Type} (f : GenState → α → GenState)
    (hf : ∀ st a, (f st a).warnings = st.warnings) :
    ∀ (l : List α) (st : GenState),
      (l.foldl f st).warnings = st.warnings := by
  intro l
  induction l with
  | nil => intro st; rfl
  | cons a l ih => intro st; rw [List.foldl_cons, ih, hf]

theorem enumAlterStep_hb (g : Generator) (st : GenState) (ed : EnumDiff) :
    (enumAlterStep g st ed).hasBreaking =
      (st.hasBreaking || decide (0 < ed.RemovedValues.length)) := by
  unfold enumAlterStep
  have h1 : ∀ (l : List String) (s : GenState),
      (l.foldl (fun s v => { s with up := s.up ++ "ALTER TYPE " ++ g.schema ++
        "." ++ ed.Name ++ " ADD VALUE \x27" ++ v ++ "\x27;\n" }) s).hasBreaking =
      s.hasBreaking := foldl_hb_const _ fun _ _ => rfl
  by_cases h : 0 < ed.RemovedValues.length <;> simp [h, h1]

theorem enumAlterStep_warn (g : Generator) (st : GenState) (ed : EnumDiff) :
    (enumAlterStep g st ed).warnings =
      st.warnings ++ (if 0 < ed.RemovedValues.length then
        ["Cannot automatically remove enum values from " ++ ed.Name ++
         ". Manual intervention required."] else []) := by
  unfold enumAlterStep
  have h1 : ∀ (l : List String) (s : GenState),
      (l.foldl (fun s v => { s with up := s.up ++ "ALTER TYPE " ++ g.schema ++
        "." ++ ed.Name ++ " ADD VALUE \x27" ++ v ++ "\x27;\n" }) s).warnings =
      s.warnings := foldl_warn_const _ fun _ _ => rfl
  by_cases h : 0 < ed.RemovedValues.length <;> simp [h, h1]

theorem generateEnums_hb (g : Generator) (d : DiffResult) (st : GenState) :
    (generateEnums g d st).hasBreaking =
      (st.hasBreaking ||
        d.AlteredEnums.any fun ed => decide (0 < ed.RemovedValues.length)) := by
  show (d.DroppedEnums.foldl (enumDropStep g)
    (d.AlteredEnums.foldl (enumAlterStep g)
      (d.CreatedEnums.foldl (enumCreateStep g) st))).hasBreaking = _
  rw [foldl_hb_const (enumDropStep g) (fun _ _ => rfl),
    foldl_hb (enumAlterStep g) _ (enumAlterStep_hb g),
    foldl_hb_const (enumCreateStep g) (fun _ _ => rfl)]

theorem generateEnums_warn (g : Generator) (d : DiffResult) (st : GenState) :
    (generateEnums g d st).warnings =
      st.warnings ++ (d.AlteredEnums.flatMap fun ed =>
        if 0 < ed.RemovedValues.length then
          ["Cannot automatically remove enum values from " ++ ed.Name ++
           ". Manual intervention required."] else []) := by
  show (d.DroppedEnums.foldl (enumDropStep g)
    (d.AlteredEnums.foldl (enumAlterStep g)
      (d.CreatedEnums.foldl (enumCreateStep g) st))).warnings = _
  rw [foldl_warn_const (enumDropStep g) (fun _ _ => rfl),
    foldl_warn (enumAlterStep g) _ (enumAlterStep_warn g),
    foldl_warn_const (enumCreateStep g) (fun _ _ => rfl)]

theorem generateSequences_hb (g : Generator) (d : DiffResult) (st : GenState) :
    (generateSequences g d st).hasBreaking = st.hasBreaking := by
  show (d.DroppedSequences.foldl (seqDropStep g)
    (d.CreatedSequences.foldl (seqCreateStep g) st)).hasBreaking = _
  rw [foldl_hb_const (seqDropStep g) (fun _ _ => rfl),
    foldl_hb_const (seqCreateStep g) (fun _ _ => rfl)]

theorem generateSequences_warn (g : Generator) (d : DiffResult) (st : GenState) :
    (generateSequences g d st).warnings = st.warnings := by
  show (d.DroppedSequences.foldl (seqDropStep g)
    (d.CreatedSequences.foldl (seqCreateStep g) st)).warnings = _
  rw [foldl_warn_const (seqDropStep g) (fun _ _ => rfl),
    foldl_warn_const (seqCreateStep g) (fun _ _ => rfl)]

theorem alterColumnStep_hb (g : Generator) (tn : String) (st : GenState)
    (cd : ColumnDiff) : (alterColumnStep g tn st cd).hasBreaking =
      st.hasBreaking := by
  cases hT : cd.TypeChanged <;> cases hNc : cd.NullableChanged <;>
    cases hNn : cd.NewColumn.IsNullable <;> cases hD : cd.DefaultChanged <;>
    cases hNd : cd.NewColumn.DefaultValue <;>
    cases hOd : cd.OldColumn.DefaultValue <;>
    simp [alterColumnStep, hT, hNc, hNn, hD, hNd, hOd]

theorem alterColumnStep_warn (g : Generator) (tn : String) (st : GenState)
    (cd : ColumnDiff) : (alterColumnStep g tn st cd).warnings =
      st.warnings ++
        ((if cd.TypeChanged then
            ["Type change on " ++ tn ++ "." ++ cd.Name ++
             " may cause data loss or conversion errors"] else []) ++
         (if cd.NullableChanged && !cd.NewColumn.IsNullable then
            ["Setting NOT NULL on " ++ tn ++ "." ++ cd.Name ++
             " may fail if existing NULL values exist"] else [])) := by
  cases hT : cd.TypeChanged <;> cases hNc : cd.NullableChanged <;>
    cases hNn : cd.NewColumn.IsNullable <;> cases hD : cd.DefaultChanged <;>
    cases hNd : cd.NewColumn.DefaultValue <;>
    cases hOd : cd.OldColumn.DefaultValue <;>
    simp [alterColumnStep, hT, hNc, hNn, hD, hNd, hOd]

theorem tableAlterStep_hb (g : Generator) (st : GenState) (td : TableDiff) :
    (tableAlterStep g st td).hasBreaking =
      (st.hasBreaking || decide (0 < td.DroppedColumns.length)) := by
  show (td.AlteredColumns.foldl (alterColumnStep g td.TableName)
      (td.DroppedColumns.foldl (dropColumnStep g td.TableName)
        (td.AddedColumns.foldl (addColumnStep g td.TableName) st))).hasBreaking = _
  rw [foldl_hb_const (alterColumnStep g td.TableName) (alterColumnStep_hb g _),
    foldl_hb (dropColumnStep g td.TableName) (fun _ => true)
      (fun st a => by simp [dropColumnStep]),
    foldl_hb_const (addColumnStep g td.TableName) (fun _ _ => rfl)]
  cases td.DroppedColumns <;> simp

theorem tableAlterStep_warn (g : Generator) (st : GenState) (td : TableDiff) :
    (tableAlterStep g st td).warnings =
      st.warnings ++
        ((td.DroppedColumns.flatMap fun c =>
            ["Dropping column " ++ td.TableName ++ "." ++ c.Name ++
             " will result in data loss"]) ++
         (td.AlteredColumns.flatMap fun cd =>
            (if cd.TypeChanged then
               ["Type change on " ++ td.TableName ++ "." ++ cd.Name ++
                " may cause data loss or conversion errors"] else []) ++
            (if cd.NullableChanged && !cd.NewColumn.IsNullable then
               ["Setting NOT NULL on " ++ td.TableName ++ "." ++ cd.Name ++
                " may fail if existing NULL values exist"] else []))) := by
  show (td.AlteredColumns.foldl (alterColumnStep g td.TableName)
      (td.DroppedColumns.foldl (dropColumnStep g td.TableName)
        (td.AddedColumns.foldl (addColumnStep g td.TableName) st))).warnings = _
  rw [foldl_warn (alterColumnStep g td.TableName) _ (alterColumnStep_warn g _),
    foldl_warn (dropColumnStep g td.TableName)
      (fun c => ["Dropping column " ++ td.TableName ++ "." ++ c.Name ++
        " will result in data loss"])
      (fun st a => by simp [dropColumnStep]),
    foldl_warn_const (addColumnStep g td.TableName) (fun _ _ => rfl)]
  rw [List.append_assoc]

theorem generateTables_hb (g : Generator) (d : DiffResult) (st : GenState) :
    (generateTables g d st).hasBreaking =
      (st.hasBreaking ||
        (d.AlteredTables.any fun td => decide (0 < td.DroppedColumns.length)) ||
        decide (0 < d.DroppedTables.length)) := by
  show (d.DroppedTables.foldl (tableDropStep g)
    (d.AlteredTables.foldl (tableAlterStep g)
      (d.CreatedTables.foldl (tableCreateStep g) st))).hasBreaking = _
  rw [foldl_hb (tableDropStep g) (fun _ => true)
      (fun st a => by simp [tableDropStep]),
    foldl_hb (tableAlterStep g) _ (tableAlterStep_hb g),
    foldl_hb_const (tableCreateStep g) (fun _ _ => rfl)]
  cases d.DroppedTables <;> simp [Bool.or_assoc]

theorem generateTables_warn (g : Generator) (d : DiffResult) (st : GenState) :
    (generateTables g d st).warnings =
      st.warnings ++
        ((d.AlteredTables.flatMap fun td =>
            (td.DroppedColumns.flatMap fun c =>
              ["Dropping column " ++ td.TableName ++ "." ++ c.Name ++
               " will result in data loss"]) ++
            (td.AlteredColumns.flatMap fun cd =>
              (if cd.TypeChanged then
                 ["Type change on " ++ td.TableName ++ "." ++ cd.Name ++
                  " may cause data loss or conversion errors"] else []) ++
              (if cd.NullableChanged && !cd.NewColumn.IsNullable then
                 ["Setting NOT NULL on " ++ td.TableName ++ "." ++ cd.Name ++
                  " may fail if existing NULL values exist"] else []))) ++
         (d.DroppedTables.flatMap fun t =>
            ["Dropping table " ++ t.Name ++
             " will result in complete data loss"])) := by
  show (d.DroppedTables.foldl (tableDropStep g)
    (d.AlteredTables.foldl (tableAlterStep g)
      (d.CreatedTables.foldl (tableCreateStep g) st))).warnings = _
  rw [foldl_warn (tableDropStep g)
      (fun t => ["Dropping table " ++ t.Name ++
        " will result in complete data loss"])
      (fun st a => by simp [tableDropStep]),
    foldl_warn (tableAlterStep g) _ (tableAlterStep_warn g),
    foldl_warn_const (tableCreateStep g) (fun _ _ => rfl)]
  rw [List.append_assoc]

theorem maybeNlUp_hb (c : Bool) (st : GenState) :
    (maybeNlUp c st).hasBreaking = st.hasBreaking := by
  unfold maybeNlUp; split <;> rfl

theorem maybeNlDown_hb (c : Bool) (st : GenState) :
    (maybeNlDown c st).hasBreaking = st.hasBreaking := by
  unfold maybeNlDown; split <;> rfl

theorem maybeNlBoth_hb (c : Bool) (st : GenState) :
    (maybeNlBoth c st).hasBreaking = st.hasBreaking := by
  unfold maybeNlBoth; split <;> rfl

theorem maybeNlUp_warn (c : Bool) (st : GenState) :
    (maybeNlUp c st).warnings = st.warnings := by
  unfold maybeNlUp; split <;> rfl

theorem maybeNlDown_warn (c : Bool) (st : GenState) :
    (maybeNlDown c st).warnings = st.warnings := by
  unfold maybeNlDown; split <;> rfl

theorem maybeNlBoth_warn (c : Bool) (st : GenState) :
    (maybeNlBoth c st).warnings = st.warnings := by
  unfold maybeNlBoth; split <;> rfl

theorem generateConstraints_hb (g : Generator) (d : DiffResult) (st : GenState) :
    (generateConstraints g d st).hasBreaking = st.hasBreaking := by
  show (maybeNlDown _ (d.DroppedConstraints.foldl (conRecreateStep g)
    (maybeNlBoth _ (d.CreatedConstraints.foldl (conCreateStep g)
      (maybeNlUp _ (d.DroppedConstraints.foldl (conDropStep g)
        st)))))).hasBreaking = _
  rw [maybeNlDown_hb, foldl_hb_const (conRecreateStep g) (fun _ _ => rfl),
    maybeNlBoth_hb, foldl_hb_const (conCreateStep g) (fun _ _ => rfl),
    maybeNlUp_hb, foldl_hb_const (conDropStep g) (fun _ _ => rfl)]

theorem generateConstraints_warn (g : Generator) (d : DiffResult) (st : GenState) :
    (generateConstraints g d st).warnings = st.warnings := by
  show (maybeNlDown _ (d.DroppedConstraints.foldl (conRecreateStep g)
    (maybeNlBoth _ (d.CreatedConstraints.foldl (conCreateStep g)
      (maybeNlUp _ (d.DroppedConstraints.foldl (conDropStep g)
        st)))))).warnings = _
  rw [maybeNlDown_warn, foldl_warn_const (conRecreateStep g) (fun _ _ => rfl),
    maybeNlBoth_warn, foldl_warn_const (conCreateStep g) (fun _ _ => rfl),
    maybeNlUp_warn, foldl_warn_const (conDropStep g) (fun _ _ => rfl)]

theorem generateIndexes_hb (g : Generator) (d : DiffResult) (st : GenState) :
    (generateIndexes g d st).hasBreaking = st.hasBreaking := by
  show (maybeNlBoth _ (d.DroppedIndexes.foldl (idxDropStep g)
    (maybeNlBoth _ (d.CreatedIndexes.foldl (idxCreateStep g)
      st)))).hasBreaking = _
  rw [maybeNlBoth_hb, foldl_hb_const (idxDropStep g) (fun _ _ => rfl),
    maybeNlBoth_hb, foldl_hb_const (idxCreateStep g) (fun _ _ => rfl)]

theorem generateIndexes_warn (g : Generator) (d : DiffResult) (st : GenState) :
    (generateIndexes g d st).warnings = st.warnings := by
  show (maybeNlBoth _ (d.DroppedIndexes.foldl (idxDropStep g)
    (maybeNlBoth _ (d.CreatedIndexes.foldl (idxCreateStep g)
      st)))).warnings = _
  rw [maybeNlBoth_warn, foldl_warn_const (idxDropStep g) (fun _ _ => rfl),
    maybeNlBoth_warn, foldl_warn_const (idxCreateStep g) (fun _ _ => rfl)]

theorem generateFunctions_hb (g : Generator) (d : DiffResult) (st : GenState) :
    (generateFunctions g d st).hasBreaking = st.hasBreaking := by
  show (d.DroppedFunctions.foldl (funDropStep g)
    (d.AlteredFunctions.foldl funAlterStep
      (d.CreatedFunctions.foldl (funCreateStep g) st))).hasBreaking = _
  rw [foldl_hb_const (funDropStep g) (fun _ _ => rfl),
    foldl_hb_const funAlterStep (fun _ _ => rfl),
    foldl_hb_const (funCreateStep g) (fun _ _ => rfl)]

theorem generateFunctions_warn (g : Generator) (d : DiffResult) (st : GenState) :
    (generateFunctions g d st).warnings = st.warnings := by
  show (d.DroppedFunctions.foldl (funDropStep g)
    (d.AlteredFunctions.foldl funAlterStep
      (d.CreatedFunctions.foldl (funCreateStep g) st))).warnings = _
  rw [foldl_warn_const (funDropStep g) (fun _ _ => rfl),
    foldl_warn_const funAlterStep (fun _ _ => rfl),
    foldl_warn_const (funCreateStep g) (fun _ _ => rfl)]

theorem generateViews_hb (g : Generator) (d : DiffResult) (st : GenState) :
    (generateViews g d st).hasBreaking = st.hasBreaking := by
  show (d.DroppedViews.foldl (viewDropStep g)
    (d.AlteredViews.foldl (viewAlterStep g)
      (d.CreatedViews.foldl (viewCreateStep g) st))).hasBreaking = _
  rw [foldl_hb_const (viewDropStep g) (fun _ _ => rfl),
    foldl_hb_const (viewAlterStep g) (fun _ _ => rfl),
    foldl_hb_const (viewCreateStep g) (fun _ _ => rfl)]

theorem generateViews_warn (g : Generator) (d : DiffResult) (st : GenState) :
    (generateViews g d st).warnings = st.warnings := by
  show (d.DroppedViews.foldl (viewDropStep g)
    (d.AlteredViews.foldl (viewAlterStep g)
      (d.CreatedViews.foldl (viewCreateStep g) st))).warnings = _
  rw [foldl_warn_const (viewDropStep g) (fun _ _ => rfl),
    foldl_warn_const (viewAlterStep g) (fun _ _ => rfl),
    foldl_warn_const (viewCreateStep g) (fun _ _ => rfl)]

theorem generateTriggers_hb (g : Generator) (d : DiffResult) (st : GenState) :
    (generateTriggers g d st).hasBreaking = st.hasBreaking := by
  show (d.DroppedTriggers.foldl (trigDropStep g)
    (d.CreatedTriggers.foldl (trigCreateStep g) st)).hasBreaking = _
  rw [foldl_hb_const (trigDropStep g) (fun _ _ => rfl),
    foldl_hb_const (trigCreateStep g) (fun _ _ => rfl)]

theorem generateTriggers_warn (g : Generator) (d : DiffResult) (st : GenState) :
    (generateTriggers g d st).warnings = st.warnings := by
  show (d.DroppedTriggers.foldl (trigDropStep g)
    (d.CreatedTriggers.foldl (trigCreateStep g) st)).warnings = _
  rw [foldl_warn_const (trigDropStep g) (fun _ _ => rfl),
    foldl_warn_const (trigCreateStep g) (fun _ _ => rfl)]

theorem Generate_hasBreaking (g : Generator) (d : DiffResult)
    (description now : String) :
    (Generate g d description now).HasBreaking =
      ((d.AlteredEnums.any fun ed => decide (0 < ed.RemovedValues.length)) ||
       (d.AlteredTables.any fun td => decide (0 < td.DroppedColumns.length)) ||
       decide (0 < d.DroppedTables.length)) := by
  show (generateTriggers g d (generateViews g d (generateFunctions g d
    (generateIndexes g d (generateConstraints g d (generateTables g d
      (generateSequences g d (generateEnums g d _)))))))).hasBreaking = _
  rw [generateTriggers_hb, generateViews_hb, generateFunctions_hb,
    generateIndexes_hb, generateConstraints_hb, generateTables_hb,
    generateSequences_hb, generateEnums_hb]
  simp [Bool.or_assoc]

theorem Generate_warnings (g : Generator) (d : DiffResult)
    (description now : String) :
    (Generate g d description now).Warnings =
      (d.AlteredEnums.flatMap fun ed =>
        if 0 < ed.RemovedValues.length then
          ["Cannot automatically remove enum values from " ++ ed.Name ++
           ". Manual intervention required."] else []) ++
      ((d.AlteredTables.flatMap fun td =>
          (td.DroppedColumns.flatMap fun c =>
            ["Dropping column " ++ td.TableName ++ "." ++ c.Name ++
             " will result in data loss"]) ++
          (td.AlteredColumns.flatMap fun cd =>
            (if cd.TypeChanged then
               ["Type change on " ++ td.TableName ++ "." ++ cd.Name ++
                " may cause data loss or conversion errors"] else []) ++
            (if cd.NullableChanged && !cd.NewColumn.IsNullable then
               ["Setting NOT NULL on " ++ td.TableName ++ "." ++ cd.Name ++
                " may fail if existing NULL values exist"] else []))) ++
       (d.DroppedTables.flatMap fun t =>
          ["Dropping table " ++ t.Name ++
           " will result in complete data loss"])) := by
  show (generateTriggers g d (generateViews g d (generateFunctions g d
    (generateIndexes g d (generateConstraints g d (generateTables g d
      (generateSequences g d (generateEnums g d _)))))))).warnings = _
  rw [generateTriggers_warn, generateViews_warn, generateFunctions_warn,
    generateIndexes_warn, generateConstraints_warn, generateTables_warn,
    generateSequences_warn, generateEnums_warn]
  simp

/-- C3 (amended): the generator appends a warning for each occurrence of
a dropped column, a dropped table, a column type change, a NOT NULL
tightening, and removed enum values; but `HasBreaking` is set exactly by
dropped columns, dropped tables and removed enum values — a type change
or NOT NULL tightening alone warns without setting `HasBreaking`. -/
theorem claim_C3_warnings_and_breaking (g : Generator) (d : DiffResult)
    (description now : String) :
    ((Generate g d description now).HasBreaking =
      ((d.AlteredTables.any fun td => !td.DroppedColumns.isEmpty) ||
       !d.DroppedTables.isEmpty ||
       (d.AlteredEnums.any fun ed => !ed.RemovedValues.isEmpty))) ∧
    (∀ td ∈ d.AlteredTables, ∀ c ∈ td.DroppedColumns,
      ("Dropping column " ++ td.TableName ++ "." ++ c.Name ++
        " will result in data loss") ∈ (Generate g d description now).Warnings) ∧
    (∀ t ∈ d.DroppedTables,
      ("Dropping table " ++ t.Name ++ " will result in complete data loss") ∈
        (Generate g d description now).Warnings) ∧
    (∀ ed ∈ d.AlteredEnums, ed.RemovedValues ≠ [] →
      ("Cannot automatically remove enum values from " ++ ed.Name ++
        ". Manual intervention required.") ∈
        (Generate g d description now).Warnings) ∧
    (∀ td ∈ d.AlteredTables, ∀ cd ∈ td.AlteredColumns, cd.TypeChanged = true →
      ("Type change on " ++ td.TableName ++ "." ++ cd.Name ++
        " may cause data loss or conversion errors") ∈
        (Generate g d description now).Warnings) ∧
    (∀ td ∈ d.AlteredTables, ∀ cd ∈ td.AlteredColumns,
      cd.NullableChanged = true → cd.NewColumn.IsNullable = false →
      ("Setting NOT NULL on " ++ td.TableName ++ "." ++ cd.Name ++
        " may fail if existing NULL values exist") ∈
        (Generate g d description now).Warnings) := by
  have hw := Generate_warnings g d description now
  refine ⟨?_, ?_, ?_, ?_, ?_, ?_⟩
  · rw [Generate_hasBreaking]
    have h2 : ∀ a b c : Bool, ((a || b) || c) = ((b || c) || a) := by decide
    rw [h2]
    have e1 : (d.AlteredTables.any fun td =>
        decide (0 < td.DroppedColumns.length)) =
        (d.AlteredTables.any fun td => !td.DroppedColumns.isEmpty) := by
      congr 1
      funext td
      cases td.DroppedColumns <;> simp
    have e2 : decide (0 < d.DroppedTables.length) = !d.DroppedTables.isEmpty := by
      cases d.DroppedTables <;> simp
    have e3 : (d.AlteredEnums.any fun ed =>
        decide (0 < ed.RemovedValues.length)) =
        (d.AlteredEnums.any fun ed => !ed.RemovedValues.isEmpty) := by
      congr 1
      funext ed
      cases ed.RemovedValues <;> simp
    rw [e1, e2, e3]
  · intro td htd c hc
    rw [hw]
    refine List.mem_append_right _ (List.mem_append_left _ ?_)
    refine List.mem_flatMap.mpr ⟨td, htd, List.mem_append_left _ ?_⟩
    exact List.mem_flatMap.mpr ⟨c, hc, List.mem_singleton.mpr rfl⟩
  · intro t ht
    rw [hw]
    refine List.mem_append_right _ (List.mem_append_right _ ?_)
    exact List.mem_flatMap.mpr ⟨t, ht, List.mem_singleton.mpr rfl⟩
  · intro ed hed hne
    rw [hw]
    refine List.mem_append_left _ ?_
    refine List.mem_flatMap.mpr ⟨ed, hed, ?_⟩
    rw [if_pos (by cases hr : ed.RemovedValues with
      | nil => exact absurd hr hne
      | cons a l => simp [hr])]
    exact List.mem_singleton.mpr rfl
  · intro td htd cd hcd hT
    rw [hw]
    refine List.mem_append_right _ (List.mem_append_left _ ?_)
    refine List.mem_flatMap.mpr ⟨td, htd, List.mem_append_right _ ?_⟩
    refine List.mem_flatMap.mpr ⟨cd, hcd, List.mem_append_left _ ?_⟩
    rw [if_pos hT]
    exact List.mem_singleton.mpr rfl
  · intro td htd cd hcd hNc hNn
    rw [hw]
    refine List.mem_append_right _ (List.mem_append_left _ ?_)
    refine List.mem_flatMap.mpr ⟨td, htd, List.mem_append_right _ ?_⟩
    refine List.mem_flatMap.mpr ⟨cd, hcd, List.mem_append_right _ ?_⟩
    rw [if_pos (by simp [hNc, hNn])]
    exact List.mem_singleton.mpr rfl

/-- Witness for C3 (amended) on a diff exercising all five warning
sources: `HasBreaking` is set and all five warnings are present. -/
theorem claim_C3_warnings_and_breaking_witness :
    (Generate (NewGenerator "s") fixtures.allBreakingDiff "d" "now").HasBreaking =
      true ∧
    ("Dropping column t.c2 will result in data loss" ∈
      (Generate (NewGenerator "s") fixtures.allBreakingDiff "d" "now").Warnings) ∧
    ("Dropping table old will result in complete data loss" ∈
      (Generate (NewGenerator "s") fixtures.allBreakingDiff "d" "now").Warnings) ∧
    ("Cannot automatically remove enum values from color. Manual intervention required." ∈
      (Generate (NewGenerator "s") fixtures.allBreakingDiff "d" "now").Warnings) ∧
    ("Type change on t.c may cause data loss or conversion errors" ∈
      (Generate (NewGenerator "s") fixtures.allBreakingDiff "d" "now").Warnings) ∧
    ("Setting NOT NULL on t.c3 may fail if existing NULL values exist" ∈
      (Generate (NewGenerator "s") fixtures.allBreakingDiff "d" "now").Warnings) := by
  have h := claim_C3_warnings_and_breaking (NewGenerator "s")
    fixtures.allBreakingDiff "d" "now"
  refine ⟨by rw [h.1]; rfl, ?_, ?_, ?_, ?_, ?_⟩
  · exact h.2.1 fixtures.breakingTableDiff (by decide) fixtures.droppedCol
      (by decide)
  · exact h.2.2.1 fixtures.droppedTable (by decide)
  · exact h.2.2.2.1 fixtures.removedValueEnumDiff (by decide) (by decide)
  · exact h.2.2.2.2.1 fixtures.breakingTableDiff (by decide)
      fixtures.typeChangeColDiff (by decide) (by decide)
  · exact h.2.2.2.2.2 fixtures.breakingTableDiff (by decide)
      fixtures.notNullColDiff (by decide) (by decide) (by decide)

end diff

namespace plugin

theorem mem_of_lookup_eq_some {α : Type} {m : List (String × α)} {k : String}
    {v : α} (h : List.lookup k m = some v) : (k, v) ∈ m := by
  induction m with
  | nil => cases h
  | cons kv rest ih =>
    obtain ⟨k1, v1⟩ := kv
    by_cases hk : k = k1
    · subst hk
      rw [List.lookup_cons] at h
      simp at h
      simp [h]
    · rw [List.lookup_cons, beq_false_of_ne hk] at h
      exact List.mem_cons_of_mem _ (ih h)

theorem lookup_eq_none_iff {α : Type} {m : List (String × α)} {k : String} :
    List.lookup k m = none ↔ k ∉ m.map Prod.fst := by
  induction m with
  | nil => simp
  | cons kv rest ih =>
    obtain ⟨k1, v1⟩ := kv
    by_cases hk : k = k1
    · subst hk
      simp [List.lookup_cons]
    · rw [List.lookup_cons, beq_false_of_ne hk]
      simp [ih, hk]

theorem lookup_perm_of_nodup {α : Type} {m m' : List (String × α)}
    (h : List.Perm m' m) (hn : (m.map Prod.fst).Nodup) (k : String) :
    List.lookup k m' = List.lookup k m := by
  cases hm' : List.lookup k m' with
  | some v =>
    exact (diff.lookup_eq_of_mem_nodup hn
      (h.mem_iff.mp (mem_of_lookup_eq_some hm'))).symm
  | none =>
    have hk : k ∉ m'.map Prod.fst := lookup_eq_none_iff.mp hm'
    have hk2 : k ∉ m.map Prod.fst := fun hm =>
      hk ((h.map Prod.fst).mem_iff.mpr hm)
    exact (lookup_eq_none_iff.mpr hk2).symm

theorem lookup_mapSet_self (m : List (String × JValue)) (k : String)
    (v : JValue) : List.lookup k (mapSet m k v) = some v := by
  induction m with
  | nil => simp [mapSet, List.lookup_cons]
  | cons kv rest ih =>
    obtain ⟨k1, v1⟩ := kv
    rw [mapSet]
    by_cases hk : k1 = k
    · rw [if_pos hk]
      simp [List.lookup_cons]
    · rw [if_neg hk, List.lookup_cons, beq_false_of_ne (Ne.symm hk)]
      exact ih

theorem mapSet_keys_nodup {m : List (String × JValue)} {k : String}
    {v : JValue} (hn : (m.map Prod.fst).Nodup) :
    ((mapSet m k v).map Prod.fst).Nodup := by
  induction m with
  | nil => simp [mapSet]
  | cons kv rest ih =>
    obtain ⟨k1, v1⟩ := kv
    rw [mapSet]
    by_cases hk : k1 = k
    · rw [if_pos hk]
      subst hk
      exact hn
    · rw [if_neg hk]
      have h1 : k1 ∉ rest.map Prod.fst ∧ (rest.map Prod.fst).Nodup := by
        rw [List.map_cons, List.nodup_cons] at hn
        exact hn
      have h2 : k1 ∉ (mapSet rest k v).map Prod.fst := by
        intro hmem
        rcases List.mem_map.mp hmem with ⟨⟨k2, v2⟩, hkv2, hfst⟩
        have : (k2, v2) ∈ rest ∨ k2 = k := by
          clear hmem h1 ih hn
          induction rest with
          | nil =>
            simp [mapSet] at hkv2
            simp [hkv2]
          | cons kw rest2 ih2 =>
            obtain ⟨k3, v3⟩ := kw
            rw [mapSet] at hkv2
            by_cases hk3 : k3 = k
            · rw [if_pos hk3] at hkv2
              rcases List.mem_cons.mp hkv2 with h | h
              · cases h; simp
              · simp [h]
            · rw [if_neg hk3] at hkv2
              rcases List.mem_cons.mp hkv2 with h | h
              · cases h; simp
              · rcases ih2 h with h | h
                · simp [h]
                · simp [h]
        rcases this with h | h
        · exact h1.1 (List.mem_map.mpr ⟨(k2, v2), h, hfst⟩)
        · exact hk (hfst ▸ h)
      exact List.nodup_cons.mpr ⟨h2, ih h1.2⟩

theorem mapSet_eq_self_of_lookup {m : List (String × JValue)} {k : String}
    {v : JValue} (h : List.lookup k m = some v) : mapSet m k v = m := by
  induction m with
  | nil => cases h
  | cons kv rest ih =>
    obtain ⟨k1, v1⟩ := kv
    rw [mapSet]
    by_cases hk : k1 = k
    · rw [if_pos hk]
      subst hk
      rw [List.lookup_cons] at h
      simp at h
      rw [h]
    · rw [if_neg hk]
      rw [List.lookup_cons, beq_false_of_ne (Ne.symm hk)] at h
      rw [ih h]

theorem lookup_ToStringWire_log (p : Parameter)
    (hn : (p.value.map Prod.fst).Nodup) :
    List.lookup "log" (ToStringWire p) = some (JValue.str p.log) := by
  rw [ToStringWire,
    lookup_perm_of_nodup (List.perm_insertionSort keyLE _)
      (mapSet_keys_nodup hn) "log"]
  exact lookup_mapSet_self p.value "log" (JValue.str p.log)

/-- C4 (amended): parsing the serialized form of an envelope `e` with
unique keys yields an envelope whose value map stores the log buffer
under `log` and whose own log buffer is empty.  Hence (a) `GetLog` on
the parsed envelope returns the original log content (with the
trailing-blank-line trim `GetLog` always applies); (b) when the log
buffer is empty a second serialization reproduces the same textual
form; (c) when the log buffer is non-empty the round trip is not the
identity and a second serialization produces a different textual form,
because `ToString` overwrites `log` with the now-empty buffer. -/
theorem claim_C4_roundtrip_log_behaviour (p : Parameter)
    (hn : (p.value.map Prod.fst).Nodup)
    (hleaf : stringLeafObj p.value = true) :
    (GetLog (roundTrip p) =
      .ok (if ['\n', '\n'].isSuffixOf p.log.data then
        String.mk p.log.data.dropLast else p.log)) ∧
    (p.log = "" → ToStringWire (roundTrip p) = ToStringWire p) ∧
    (p.log ≠ "" →
      roundTrip p ≠ p ∧ ToStringWire (roundTrip p) ≠ ToStringWire p) := by
  have hlook : List.lookup "log" (ToStringWire p) = some (JValue.str p.log) :=
    lookup_ToStringWire_log p hn
  have hwire : ∀ q : Parameter, ToStringWire q =
      List.insertionSort keyLE (mapSet q.value "log" (JValue.str q.log)) :=
    fun q => rfl
  refine ⟨?_, ?_, ?_⟩
  · rw [GetLog]
    show (match goGet (ToStringWire p) "log" with
      | none => Except.ok ""
      | some (.str l) =>
        Except.ok (if ['\n', '\n'].isSuffixOf l.data then
          String.mk l.data.dropLast else l)
      | some _ => Except.error
          "interface conversion: log is not a string") = _
    rw [goGet, hlook]
  · intro hlog
    rw [hwire (roundTrip p)]
    show List.insertionSort keyLE
      (mapSet (ToStringWire p) "log" (JValue.str "")) = _
    rw [mapSet_eq_self_of_lookup (by rw [hlook, hlog])]
    exact (List.sorted_insertionSort keyLE _).insertionSort_eq
  · intro hlog
    have hlook2 : List.lookup "log" (ToStringWire (roundTrip p)) =
        some (JValue.str "") := by
      show List.lookup "log" (List.insertionSort keyLE
        (mapSet (ToStringWire p) "log" (JValue.str ""))) = _
      have hn2 : ((ToStringWire p).map Prod.fst).Nodup :=
        ((List.perm_insertionSort keyLE
          (mapSet p.value "log" (JValue.str p.log))).map Prod.fst).symm.nodup
          (@mapSet_keys_nodup p.value "log" (JValue.str p.log) hn)
      rw [lookup_perm_of_nodup (List.perm_insertionSort keyLE _)
        (@mapSet_keys_nodup (ToStringWire p) "log" (JValue.str "") hn2) "log"]
      exact lookup_mapSet_self _ "log" (JValue.str "")
    constructor
    · intro h
      have h2 : (roundTrip p).log = p.log := congrArg Parameter.log h
      exact hlog (h2 ▸ rfl)
    · intro h
      rw [h, hlook] at hlook2
      have h3 : JValue.str "" = JValue.str p.log := by
        injection hlook2 with h4
        exact h4.symm
      injection h3 with h5
      exact hlog h5.symm

/-- Witness for C4 (amended) at an envelope with one string entry and an
empty log buffer: the log survives and the second serialization equals
the first. -/
theorem claim_C4_roundtrip_log_behaviour_witness :
    GetLog (roundTrip { value := [("a", JValue.str "x")], log := "" }) =
      .ok "" ∧
    ToStringWire (roundTrip { value := [("a", JValue.str "x")], log := "" }) =
      ToStringWire { value := [("a", JValue.str "x")], log := "" } := by
  have h := claim_C4_roundtrip_log_behaviour
    { value := [("a", JValue.str "x")], log := "" } (by simp) rfl
  exact ⟨h.1, h.2.1 rfl⟩

/-- C4 counterexample: an envelope whose value map is empty and whose
log buffer is `"hello\n"` has string-only leaves, but parsing its
serialized form does not return an equal envelope, and serializing the
parsed envelope yields a different textual form (its `log` entry is
reset to empty), refuting the round-trip claim for envelopes with a
non-empty log. -/
theorem claim_C4_counterexample :
    stringLeafObj fixtures.logOnlyEnvelope.value = true ∧
    roundTrip fixtures.logOnlyEnvelope ≠ fixtures.logOnlyEnvelope ∧
    ToStringWire (roundTrip fixtures.logOnlyEnvelope) ≠
      ToStringWire fixtures.logOnlyEnvelope ∧
    GetLog (roundTrip fixtures.logOnlyEnvelope) = .ok "hello\n" := by
  refine ⟨rfl, ?_, ?_, by rfl⟩
  · intro h
    have h2 : ("" : String) = "hello\n" := congrArg Parameter.log h
    exact absurd h2 (by decide)
  · intro h
    have h2 : [("log", JValue.str "")] = [("log", JValue.str "hello\n")] := h
    have h3 : ("log", JValue.str "") = ("log", JValue.str "hello\n") := by
      injection h2
    have h4 : JValue.str "" = JValue.str "hello\n" := congrArg Prod.snd h3
    injection h4 with h5
    exact absurd h5 (by decide)

end plugin

namespace core

open plugin

theorem getVersion_not_obj (p : Parameter)
    (h : ∀ m, plugin.goGet p.value "result" ≠ some (JValue.obj m)) :
    plugin.GetVersion p = .error "interface conversion: result is not a map" := by
  cases hg : plugin.goGet p.value "result" with
  | none => simp [plugin.GetVersion, hg]
  | some v =>
    cases v with
    | str s => simp [plugin.GetVersion, hg]
    | obj m => exact absurd hg (h m)
    | null => simp [plugin.GetVersion, hg]

/-- C5: for every environment in which the provider reports a deployed
version equal to the configured target and the plan fetch succeeds,
`Upgrade` returns success with the informational no-op log and performs
no provider write: the trace has no `RunCommand` and no `SetVersion`
event. -/
theorem claim_C5_noop_upgrade_no_provider_write (env : Env) (v : Version)
    (p : Plan)
    (h1 : plugin.GetVersion env.getVersionEnv = .ok (some v))
    (h2 : plugin.ErrorP env.getVersionEnv = .ok none)
    (h3 : env.plan = .ok p)
    (h4 : env.appVersion = v.AppVersion) :
    Upgrade env = { log := noopMsg v.AppVersion, trace := [], res := .ok } := by
  unfold Upgrade
  rw [h1, h2, h3]
  simp [h4]

/-- Witness for C5 at the concrete environment whose provider reports
version v1 and whose target is v1. -/
theorem claim_C5_noop_upgrade_no_provider_write_witness :
    Upgrade fixtures.noopUpgradeEnv =
      { log := noopMsg "v1", trace := [], res := .ok } :=
  claim_C5_noop_upgrade_no_provider_write fixtures.noopUpgradeEnv
    { AppVersion := "v1", DbVersion := "1", Description := "d",
      Source := "s", Time := "t" }
    fixtures.threeReleasePlan rfl rfl rfl rfl

/-- C2: `Deploy` never inspects the version object: any `GetVersion`
envelope without an error entry is treated as an existing deployment.
On the concrete provider state that returns the empty envelope (no
error, no result — i.e. no version present), `Deploy` does not run any
deploy command; it aborts while building the AlreadyExists message,
panicking on the unchecked `GetString("dbVersion")` assertion.  In the
same environment, a provider that signals the absent version through
the error entry makes `Deploy` run the deploy commands and write the
version row, confirming that the error entry is the only path into the
deploy branch. -/
theorem claim_C2_deploy_ignores_version_presence :
    plugin.HasError fixtures.emptyEnvelopeEnv.getVersionEnv = false ∧
    plugin.goGet fixtures.emptyEnvelopeEnv.getVersionEnv.value "result" =
      none ∧
    Deploy fixtures.emptyEnvelopeEnv =
      { log := "", trace := [],
        res := .panic "interface conversion: value is not a string" } ∧
    (Deploy fixtures.deployOkEnv).trace =
      [Event.runCommand "dep-v2",
       Event.setVersion "v2" "db-v2" "Created database version db-v2"
         "http://r/path-v2"] ∧
    (Deploy fixtures.deployOkEnv).res = .ok := by
  exact ⟨rfl, rfl, by rfl, by rfl, by rfl⟩

/-- C9: `Parameter.GetVersion` performs an unchecked type assertion on
the `result` entry: for every envelope whose map has no `result` key
(or a `null` or non-object value there), `GetVersion` panics instead of
returning nil; consequently `Create`, which calls it whenever the
envelope has no error entry, panics on such envelopes instead of
proceeding. -/
theorem claim_C9_getVersion_unchecked_assertion :
    (∀ p : Parameter,
      (∀ m, plugin.goGet p.value "result" ≠ some (JValue.obj m)) →
      plugin.GetVersion p =
        .error "interface conversion: result is not a map") ∧
    (∀ env : Env, plugin.HasError env.getVersionEnv = false →
      (∀ m, plugin.goGet env.getVersionEnv.value "result" ≠
        some (JValue.obj m)) →
      Create env =
        { log := "? I am checking that the database \x27" ++ env.dbName ++
            "\x27 does not already exist\n"
          trace := []
          res := .panic "interface conversion: result is not a map" }) := by
  refine ⟨getVersion_not_obj, ?_⟩
  intro env herr hobj
  simp [Create, herr, getVersion_not_obj _ hobj]

/-- Witness for C9 at the empty envelope and the concrete environment
returning it. -/
theorem claim_C9_getVersion_unchecked_assertion_witness :
    plugin.GetVersion { value := [], log := "" } =
      .error "interface conversion: result is not a map" ∧
    Create fixtures.emptyEnvelopeEnv =
      { log := "? I am checking that the database \x27db\x27 does not " ++
          "already exist\n"
        trace := []
        res := .panic "interface conversion: result is not a map" } := by
  refine ⟨claim_C9_getVersion_unchecked_assertion.1 _ (by intro m h; cases h),
    ?_⟩
  have h := claim_C9_getVersion_unchecked_assertion.2 fixtures.emptyEnvelopeEnv
    rfl (by intro m h; cases h)
  rw [h]
  rfl

theorem split_mem_left {α : Type} (P : α → Prop) :
    ∀ (A B pre post : List α) (e : α), A ++ B = pre ++ e :: post →
      (∀ x ∈ B, ¬P x) → P e → (∀ x ∈ pre, x ∈ A) ∧ e ∈ A := by
  intro A
  induction A with
  | nil =>
    intro B pre post e h hB hP
    exact absurd hP (hB e (by rw [List.nil_append] at h; rw [h]; simp))
  | cons a A' ih =>
    intro B pre post e h hB hP
    cases pre with
    | nil =>
      simp only [List.cons_append, List.nil_append] at h
      constructor
      · intro x hx; cases hx
      · rw [List.cons.injEq] at h
        exact h.1 ▸ List.mem_cons_self a A'
    | cons p pre' =>
      simp only [List.cons_append] at h
      rw [List.cons.injEq] at h
      obtain ⟨hap, htl⟩ := h
      have := ih B pre' post e htl hB hP
      constructor
      · intro x hx
        rcases List.mem_cons.mp hx with hx | hx
        · exact hx ▸ hap ▸ List.mem_cons_self a A'
        · exact List.mem_cons_of_mem a (this.1 x hx)
      · exact List.mem_cons_of_mem a this.2

theorem split_last {α : Type} :
    ∀ (C : List α) (x : α) (pre post : List α) (e : α),
      C ++ [x] = pre ++ e :: post →
      e ∈ C ∨ (pre = C ∧ e = x ∧ post = []) := by
  intro C
  induction C with
  | nil =>
    intro x pre post e h
    cases pre with
    | nil =>
      simp only [List.nil_append] at h
      rw [List.cons.injEq] at h
      exact Or.inr ⟨rfl, h.1.symm, h.2.symm⟩
    | cons p pre' =>
      simp only [List.nil_append, List.cons_append] at h
      rw [List.cons.injEq] at h
      rcases pre' <;> simp at h
  | cons c C' ih =>
    intro x pre post e h
    cases pre with
    | nil =>
      simp only [List.cons_append, List.nil_append] at h
      rw [List.cons.injEq] at h
      exact Or.inl (h.1 ▸ List.mem_cons_self c C')
    | cons p pre' =>
      simp only [List.cons_append] at h
      rw [List.cons.injEq] at h
      rcases ih x pre' post e h.2 with h3 | h3
      · exact Or.inl (List.mem_cons_of_mem c h3)
      · exact Or.inr ⟨by rw [h.1, h3.1], h3.2.1, h3.2.2⟩

theorem execCmds_trace_cons (env : Env) (c : String) (cs' : List String) :
    (execCmds env (c :: cs')).2.1 =
      if env.cmdFails c then [Event.runCommand c]
      else Event.runCommand c :: (execCmds env cs').2.1 := by
  by_cases hf : env.cmdFails c <;> simp [execCmds, hf]

theorem execCmds_err_cons (env : Env) (c : String) (cs' : List String) :
    (execCmds env (c :: cs')).2.2 =
      if env.cmdFails c then some (env.cmdErrMsg c)
      else (execCmds env cs').2.2 := by
  by_cases hf : env.cmdFails c <;> simp [execCmds, hf]

theorem execCmds_events (env : Env) :
    ∀ cs : List String, ∀ x ∈ (execCmds env cs).2.1,
      ∃ cn, x = Event.runCommand cn := by
  intro cs
  induction cs with
  | nil => intro x hx; cases hx
  | cons c cs' ih =>
    intro x hx
    rw [execCmds_trace_cons] at hx
    by_cases hf : env.cmdFails c
    · rw [if_pos hf] at hx
      rcases List.mem_cons.mp hx with hx | hx
      · exact ⟨c, hx⟩
      · cases hx
    · rw [if_neg hf] at hx
      rcases List.mem_cons.mp hx with hx | hx
      · exact ⟨c, hx⟩
      · exact ih x hx

theorem execCmds_ok (env : Env) :
    ∀ cs : List String, (execCmds env cs).2.2 = none →
      (execCmds env cs).2.1 = cs.map Event.runCommand ∧
      ∀ c ∈ cs, env.cmdFails c = false := by
  intro cs
  induction cs with
  | nil => intro _; exact ⟨rfl, fun c hc => nomatch hc⟩
  | cons c cs' ih =>
    intro h
    rw [execCmds_err_cons] at h
    rw [execCmds_trace_cons]
    by_cases hf : env.cmdFails c
    · rw [if_pos hf] at h
      cases h
    · rw [if_neg hf] at h
      rw [if_neg hf]
      have := ih h
      refine ⟨by rw [List.map_cons, this.1], ?_⟩
      intro x hx
      rcases List.mem_cons.mp hx with hx | hx
      · subst hx
        simpa using hf
      · exact this.2 x hx

theorem execCmds_fail (env : Env) :
    ∀ cs : List String, ∀ e, (execCmds env cs).2.2 = some e →
      ∃ (cs1 : List String) (c : String), (execCmds env cs).2.1 =
          cs1.map Event.runCommand ++ [Event.runCommand c] ∧
        (∀ x ∈ cs1, env.cmdFails x = false) ∧ env.cmdFails c = true := by
  intro cs
  induction cs with
  | nil => intro e h; cases h
  | cons c cs' ih =>
    intro e h
    rw [execCmds_err_cons] at h
    rw [execCmds_trace_cons]
    by_cases hf : env.cmdFails c
    · rw [if_pos hf]
      refine ⟨[], c, rfl, ?_, hf⟩
      intro x hx
      simp at hx
    · rw [if_neg hf] at h
      rw [if_neg hf]
      obtain ⟨cs1, c1, h1, h2, h3⟩ := ih e h
      refine ⟨c :: cs1, c1, ?_, ?_, h3⟩
      · rw [List.map_cons, List.cons_append, h1]
      · intro x hx
        rcases List.mem_cons.mp hx with hx | hx
        · subst hx
          simpa using hf
        · exact h2 x hx

theorem runCommands_events (env : Env) (cs : List String) :
    ∀ x ∈ (runCommands env cs).2.1, ∃ cn, x = Event.runCommand cn := by
  intro x hx
  cases hff : fetchAll env cs with
  | some e =>
    have he : runCommands env cs = ("", [], some e) := by rw [runCommands, hff]
    rw [he] at hx
    cases hx
  | none =>
    have he : runCommands env cs = execCmds env cs := by rw [runCommands, hff]
    rw [he] at hx
    exact execCmds_events env cs x hx

theorem runCommands_ok (env : Env) (cs : List String)
    (h : (runCommands env cs).2.2 = none) :
    (runCommands env cs).2.1 = cs.map Event.runCommand ∧
    ∀ c ∈ cs, env.cmdFails c = false := by
  cases hff : fetchAll env cs with
  | some e =>
    have he : runCommands env cs = ("", [], some e) := by rw [runCommands, hff]
    rw [he] at h
    simp at h
  | none =>
    have he : runCommands env cs = execCmds env cs := by rw [runCommands, hff]
    rw [he] at h ⊢
    exact execCmds_ok env cs h

theorem runCommands_fail (env : Env) (cs : List String) (e : String)
    (h : (runCommands env cs).2.2 = some e) :
    (runCommands env cs).2.1 = [] ∨
    ∃ (cs1 : List String) (c : String), (runCommands env cs).2.1 =
        cs1.map Event.runCommand ++ [Event.runCommand c] ∧
      (∀ x ∈ cs1, env.cmdFails x = false) ∧ env.cmdFails c = true := by
  cases hff : fetchAll env cs with
  | some e2 =>
    have he : runCommands env cs = ("", [], some e2) := by rw [runCommands, hff]
    rw [he]
    exact Or.inl rfl
  | none =>
    have he : runCommands env cs = execCmds env cs := by rw [runCommands, hff]
    rw [he] at h ⊢
    obtain ⟨cs1, c, h1, h2, h3⟩ := execCmds_fail env cs e h
    exact Or.inr ⟨cs1, c, h1, h2, h3⟩

theorem runCommands_clean (env : Env) (cs : List String)
    (h : (runCommands env cs).2.2 = none) :
    ∀ cn, Event.runCommand cn ∈ (runCommands env cs).2.1 →
      env.cmdFails cn = false := by
  intro cn hcn
  obtain ⟨h1, h2⟩ := runCommands_ok env cs h
  rw [h1] at hcn
  obtain ⟨c, hc, he⟩ := List.mem_map.mp hcn
  injection he with he2
  exact he2 ▸ h2 c hc

theorem split_last_sub {α : Type} :
    ∀ (C : List α) (x : α) (pre post : List α) (e : α),
      C ++ [x] = pre ++ e :: post →
      (e ∈ C ∧ ∀ y ∈ pre, y ∈ C) ∨ (pre = C ∧ e = x ∧ post = []) := by
  intro C
  induction C with
  | nil =>
    intro x pre post e h
    cases pre with
    | nil =>
      simp only [List.nil_append] at h
      rw [List.cons.injEq] at h
      exact Or.inr ⟨rfl, h.1.symm, h.2.symm⟩
    | cons p pre' =>
      simp only [List.nil_append, List.cons_append] at h
      rw [List.cons.injEq] at h
      rcases pre' <;> simp at h
  | cons c C' ih =>
    intro x pre post e h
    cases pre with
    | nil =>
      simp only [List.cons_append, List.nil_append] at h
      rw [List.cons.injEq] at h
      refine Or.inl ⟨h.1 ▸ List.mem_cons_self c C', ?_⟩
      intro y hy; cases hy
    | cons p pre' =>
      simp only [List.cons_append] at h
      rw [List.cons.injEq] at h
      rcases ih x pre' post e h.2 with ⟨h3, h4⟩ | ⟨h3, h4, h5⟩
      · refine Or.inl ⟨List.mem_cons_of_mem c h3, ?_⟩
        intro y hy
        rcases List.mem_cons.mp hy with hy | hy
        · exact hy ▸ h.1 ▸ List.mem_cons_self c C'
        · exact List.mem_cons_of_mem c (h4 y hy)
      · exact Or.inr ⟨by rw [h.1, h3], h4, h5⟩

theorem cleanEvent_setVersion (env : Env) (a d x s : String) :
    cleanEvent env (Event.setVersion a d x s) := by
  intro c h
  cases h

theorem okTrace_nil (env : Env) : okTrace env [] := by
  intro e he
  cases he

theorem okTrace_append (env : Env) (a b : List Event)
    (ha : okTrace env a) (hb : okTrace env b) : okTrace env (a ++ b) := by
  intro e he
  rcases List.mem_append.mp he with h | h
  · exact ha e h
  · exact hb e h

theorem okTrace_map_clean (env : Env) (cs : List String)
    (h : ∀ c ∈ cs, env.cmdFails c = false) :
    okTrace env (cs.map Event.runCommand) := by
  intro e he c hec
  obtain ⟨c0, hc0, he0⟩ := List.mem_map.mp he
  have h2 := he0.trans hec
  injection h2 with h3
  exact h3 ▸ h c0 hc0

theorem okTrace_single_sv (env : Env) (a d x s : String) :
    okTrace env [Event.setVersion a d x s] := by
  intro e he
  rw [List.mem_singleton] at he
  exact he ▸ cleanEvent_setVersion env a d x s

theorem okTrace_runTrace (env : Env) (cs : List String)
    (h : (runCommands env cs).2.2 = none) :
    okTrace env (runCommands env cs).2.1 := by
  intro e he c hec
  exact runCommands_clean env cs h c (hec ▸ he)

theorem targetFree_nil : targetFree [] := by
  intro e he
  cases he

theorem targetFree_append (a b : List Event)
    (ha : targetFree a) (hb : targetFree b) : targetFree (a ++ b) := by
  intro e he
  rcases List.mem_append.mp he with h | h
  · exact ha e h
  · exact hb e h

theorem targetFree_of_append_left {a b : List Event}
    (h : targetFree (a ++ b)) : targetFree a := by
  intro e he
  exact h e (List.mem_append_left b he)

theorem targetFree_map_run (cs : List String) :
    targetFree (cs.map Event.runCommand) := by
  intro e he hT
  obtain ⟨a, d, f, t, s, hes⟩ := hT
  obtain ⟨c0, _, he0⟩ := List.mem_map.mp he
  have h2 := he0.trans hes
  cases h2

theorem targetFree_runTrace (env : Env) (cs : List String) :
    targetFree (runCommands env cs).2.1 := by
  intro e he hT
  obtain ⟨cn, hcn⟩ := runCommands_events env cs e he
  obtain ⟨a, d, f, t, s, hes⟩ := hT
  rw [hcn] at hes
  cases hes

theorem not_sv_runTrace (env : Env) (cs : List String) :
    ∀ e ∈ (runCommands env cs).2.1, ¬ isSetVersion e := by
  intro e he hT
  obtain ⟨cn, hcn⟩ := runCommands_events env cs e he
  obtain ⟨a, d, x, s, hes⟩ := hT
  rw [hcn] at hes
  cases hes

theorem not_sv_map_run (cs : List String) :
    ∀ e ∈ cs.map Event.runCommand, ¬ isSetVersion e := by
  intro e he hT
  obtain ⟨a, d, x, s, hes⟩ := hT
  obtain ⟨c0, _, he0⟩ := List.mem_map.mp he
  have h2 := he0.trans hes
  cases h2

theorem intermediateDesc_ne_targetDesc (t f t2 : String) :
    intermediateDesc t ≠ targetDesc f t2 := by
  intro he
  have h2 := congrArg (fun s => s.data[2]?) he
  have h3 : (some 'd' : Option Char) = some 'g' := h2
  exact absurd h3 (by decide)

theorem not_isTargetRow_intermediate (a d t s : String) :
    ¬ isTargetRow (Event.setVersion a d (intermediateDesc t) s) := by
  intro hT
  obtain ⟨a2, d2, f, t2, s2, hes⟩ := hT
  injection hes with h1 h2 h3 h4
  exact intermediateDesc_ne_targetDesc t f t2 h3

theorem setDbVersion_fst (env : Env) (a b c d : String) :
    (setDbVersion env a b c d).1 =
      Event.setVersion a b c (env.repoURI ++ "/" ++ d) := rfl

theorem svPart_spec (env : Env) (a b c d : String) (log : String)
    (tr : List Event) :
    (∃ out, svPart env a b c d log tr = .error out ∧
       out.trace = tr ++ [(setDbVersion env a b c d).1]) ∨
    (∃ l2, svPart env a b c d log tr =
       .ok (l2, tr ++ [(setDbVersion env a b c d).1])) := by
  cases hsv : (setDbVersion env a b c d).2 with
  | some e =>
    have h : svPart env a b c d log tr = .error
        { log := log, trace := tr ++ [(setDbVersion env a b c d).1]
          res := .fail e } := by
      unfold svPart
      rw [hsv]
    exact Or.inl ⟨_, h, rfl⟩
  | none =>
    have h : svPart env a b c d log tr =
        .ok (log ++ updatingMsg, tr ++ [(setDbVersion env a b c d).1]) := by
      unfold svPart
      rw [hsv]
    exact Or.inr ⟨_, h⟩

theorem currentPart_spec (env : Env) (m : Manifest) (log : String)
    (tr : List Event) :
    (∃ out Δ t, currentPart env m log tr = .error out ∧
       out.trace = tr ++ Δ ++ t ∧ okTrace env Δ ∧ targetFree (Δ ++ t) ∧
       (t = [] ∨ ∃ c, t = [Event.runCommand c])) ∨
    (∃ l2 Δ, currentPart env m log tr = .ok (l2, tr ++ Δ) ∧ okTrace env Δ ∧
       targetFree Δ) := by
  cases hr : (runCommands env (m.getCommands m.upgradePrepare)).2.2 with
  | some e =>
    have h : currentPart env m log tr = .error
        { log := log ++ (runCommands env (m.getCommands m.upgradePrepare)).1
          trace := tr ++ (runCommands env (m.getCommands m.upgradePrepare)).2.1
          res := .fail e } := by
      unfold currentPart
      rw [hr]
    rcases runCommands_fail env _ e hr with hnil | ⟨cs1, c, h1, h2, h3⟩
    · refine Or.inl ⟨_, [], [], h, ?_, okTrace_nil env, targetFree_nil,
        Or.inl rfl⟩
      show tr ++ (runCommands env (m.getCommands m.upgradePrepare)).2.1 =
        tr ++ [] ++ []
      rw [hnil]
      simp
    · refine Or.inl ⟨_, cs1.map Event.runCommand, [Event.runCommand c], h, ?_,
        okTrace_map_clean env cs1 h2, ?_, Or.inr ⟨c, rfl⟩⟩
      · show tr ++ (runCommands env (m.getCommands m.upgradePrepare)).2.1 =
          tr ++ cs1.map Event.runCommand ++ [Event.runCommand c]
        rw [h1, List.append_assoc]
      · exact h1 ▸ targetFree_runTrace env (m.getCommands m.upgradePrepare)
  | none =>
    have h : currentPart env m log tr = .ok
        (log ++ (runCommands env (m.getCommands m.upgradePrepare)).1,
         tr ++ (runCommands env (m.getCommands m.upgradePrepare)).2.1) := by
      unfold currentPart
      rw [hr]
    exact Or.inr ⟨_, _, h, okTrace_runTrace env _ hr, targetFree_runTrace env _⟩

theorem alterPart_spec (env : Env) (m : Manifest) (log : String)
    (tr : List Event) :
    (∃ out Δ t, alterPart env m log tr = .error out ∧
       out.trace = tr ++ Δ ++ t ∧ okTrace env Δ ∧ targetFree (Δ ++ t) ∧
       (t = [] ∨ ∃ c, t = [Event.runCommand c])) ∨
    (∃ l2 Δ, alterPart env m log tr = .ok (l2, tr ++ Δ) ∧ okTrace env Δ ∧
       targetFree Δ) := by
  by_cases ha : 0 < m.upgradeAlter.length
  · cases hr : (runCommands env (m.getCommands m.upgradeAlter)).2.2 with
    | some e =>
      have h : alterPart env m log tr = .error
          { log := log ++ (runCommands env (m.getCommands m.upgradeAlter)).1
            trace := tr ++ (runCommands env (m.getCommands m.upgradeAlter)).2.1
            res := .fail e } := by
        unfold alterPart
        rw [if_pos ha, hr]
      rcases runCommands_fail env _ e hr with hnil | ⟨cs1, c, h1, h2, h3⟩
      · refine Or.inl ⟨_, [], [], h, ?_, okTrace_nil env, targetFree_nil,
          Or.inl rfl⟩
        show tr ++ (runCommands env (m.getCommands m.upgradeAlter)).2.1 =
          tr ++ [] ++ []
        rw [hnil]
        simp
      · refine Or.inl ⟨_, cs1.map Event.runCommand, [Event.runCommand c], h, ?_,
          okTrace_map_clean env cs1 h2, ?_, Or.inr ⟨c, rfl⟩⟩
        · show tr ++ (runCommands env (m.getCommands m.upgradeAlter)).2.1 =
            tr ++ cs1.map Event.runCommand ++ [Event.runCommand c]
          rw [h1, List.append_assoc]
        · exact h1 ▸ targetFree_runTrace env (m.getCommands m.upgradeAlter)
    | none =>
      have h : alterPart env m log tr = .ok
          (log ++ (runCommands env (m.getCommands m.upgradeAlter)).1,
           tr ++ (runCommands env (m.getCommands m.upgradeAlter)).2.1) := by
        unfold alterPart
        rw [if_pos ha, hr]
      exact Or.inr ⟨_, _, h, okTrace_runTrace env _ hr, targetFree_runTrace env _⟩
  · have h : alterPart env m log tr = .ok (log ++ noAlterMsg, tr) := by
      unfold alterPart
      rw [if_neg ha]
    refine Or.inr ⟨log ++ noAlterMsg, [], ?_, okTrace_nil env, targetFree_nil⟩
    rw [h, List.append_nil]

theorem targetPart_spec (env : Env) (v : Version) (info : Release)
    (m : Manifest) (log : String) (tr : List Event) :
    (∃ out Δ t, targetPart env v info m log tr = .error out ∧
       out.trace = tr ++ Δ ++ t ∧ okTrace env Δ ∧ targetFree Δ ∧
       (t = [] ∨ (∃ c, t = [Event.runCommand c]) ∨
        (∃ e, t = [e] ∧ isSetVersion e ∧
          Δ = (m.getCommands m.upgradeDeploy).map Event.runCommand ∧
          ∀ c ∈ m.getCommands m.upgradeDeploy, env.cmdFails c = false))) ∨
    (∃ l2 tr2 Δ t, targetPart env v info m log tr = .ok (l2, tr2) ∧
       tr2 = tr ++ Δ ++ t ∧ okTrace env Δ ∧ targetFree Δ ∧
       (∃ e, t = [e] ∧ isSetVersion e ∧
         Δ = (m.getCommands m.upgradeDeploy).map Event.runCommand ∧
         ∀ c ∈ m.getCommands m.upgradeDeploy, env.cmdFails c = false)) := by
  cases hr : (runCommands env (m.getCommands m.upgradeDeploy)).2.2 with
  | some e =>
    have h : targetPart env v info m log tr = .error
        { log := log ++ (runCommands env (m.getCommands m.upgradeDeploy)).1
          trace := tr ++ (runCommands env (m.getCommands m.upgradeDeploy)).2.1
          res := .fail e } := by
      unfold targetPart
      rw [hr]
    rcases runCommands_fail env _ e hr with hnil | ⟨cs1, c, h1, h2, h3⟩
    · refine Or.inl ⟨_, [], [], h, ?_, okTrace_nil env, targetFree_nil,
        Or.inl rfl⟩
      show tr ++ (runCommands env (m.getCommands m.upgradeDeploy)).2.1 =
        tr ++ [] ++ []
      rw [hnil]
      simp
    · refine Or.inl ⟨_, cs1.map Event.runCommand, [Event.runCommand c], h, ?_,
        okTrace_map_clean env cs1 h2, targetFree_map_run cs1,
        Or.inr (Or.inl ⟨c, rfl⟩)⟩
      show tr ++ (runCommands env (m.getCommands m.upgradeDeploy)).2.1 =
        tr ++ cs1.map Event.runCommand ++ [Event.runCommand c]
      rw [h1, List.append_assoc]
  | none =>
    obtain ⟨hmap, hclean⟩ := runCommands_ok env _ hr
    have h : targetPart env v info m log tr =
        svPart env env.appVersion m.dbVersion
          (targetDesc v.DbVersion m.dbVersion) info.path
          (log ++ (runCommands env (m.getCommands m.upgradeDeploy)).1)
          (tr ++ (runCommands env (m.getCommands m.upgradeDeploy)).2.1) := by
      unfold targetPart
      rw [hr]
    rcases svPart_spec env env.appVersion m.dbVersion
        (targetDesc v.DbVersion m.dbVersion) info.path
        (log ++ (runCommands env (m.getCommands m.upgradeDeploy)).1)
        (tr ++ (runCommands env (m.getCommands m.upgradeDeploy)).2.1) with
      ⟨out, hsp, htr⟩ | ⟨l2, hsp⟩
    · refine Or.inl ⟨out, (m.getCommands m.upgradeDeploy).map Event.runCommand,
        [(setDbVersion env env.appVersion m.dbVersion
          (targetDesc v.DbVersion m.dbVersion) info.path).1],
        h.trans hsp, ?_, okTrace_map_clean env _ hclean, targetFree_map_run _,
        Or.inr (Or.inr ⟨_, rfl,
          ⟨env.appVersion, m.dbVersion, targetDesc v.DbVersion m.dbVersion,
            env.repoURI ++ "/" ++ info.path, rfl⟩, rfl, hclean⟩)⟩
      rw [htr, hmap]
    · refine Or.inr ⟨l2, _,
        (m.getCommands m.upgradeDeploy).map Event.runCommand,
        [(setDbVersion env env.appVersion m.dbVersion
          (targetDesc v.DbVersion m.dbVersion) info.path).1],
        h.trans hsp, ?_, okTrace_map_clean env _ hclean, targetFree_map_run _,
        ⟨_, rfl,
          ⟨env.appVersion, m.dbVersion, targetDesc v.DbVersion m.dbVersion,
            env.repoURI ++ "/" ++ info.path, rfl⟩, rfl, hclean⟩⟩
      rw [hmap]

theorem releaseStage_spec (env : Env) (v : Version) (p : Plan)
    (ci ti i : Nat) (log : String) (tr : List Event) :
    (∃ out Δ t, releaseStage env v p ci ti i log tr = .error out ∧
       out.trace = tr ++ Δ ++ t ∧ okTrace env Δ ∧ targetFree Δ ∧
       stageTail env p ti i Δ t) ∨
    (∃ l2 tr2 Δ t, releaseStage env v p ci ti i log tr = .ok (l2, tr2) ∧
       tr2 = tr ++ Δ ++ t ∧ okTrace env Δ ∧ targetFree Δ ∧
       stageTail env p ti i Δ t ∧
       (t = [] ∨ ∃ e, t = [e] ∧ isSetVersion e)) := by
  cases i with
  | zero =>
    refine Or.inl ⟨_, [], [], rfl, ?_, okTrace_nil env, targetFree_nil,
      Or.inl rfl⟩
    show tr = tr ++ [] ++ []
    simp
  | succ i0 =>
    cases hg : p.Releases.get? (i0 + 1 - 1) with
    | none =>
      have h1 : releaseStage env v p ci ti (i0 + 1) log tr = .error
          { log := log, trace := tr
            res := .panic "runtime error: index out of range" } := by
        unfold releaseStage
        rw [hg]
      refine Or.inl ⟨_, [], [], h1, ?_, okTrace_nil env, targetFree_nil,
        Or.inl rfl⟩
      show tr = tr ++ [] ++ []
      simp
    | some info =>
      have h0 : releaseStage env v p ci ti (i0 + 1) log tr =
          (match env.manifests info.appVersion with
           | .error e =>
             .error { log := log ++ applyingMsg info, trace := tr
                      res := .fail e }
           | .ok (_, m) =>
             if i0 + 1 = ci then
               currentPart env m (log ++ applyingMsg info) tr
             else
               match alterPart env m (log ++ applyingMsg info) tr with
               | .error out => .error out
               | .ok (lg, tr2) =>
                 if i0 + 1 = ti then targetPart env v info m lg tr2
                 else svPart env info.appVersion m.dbVersion
                   (intermediateDesc m.dbVersion) info.path lg tr2) := by
        unfold releaseStage
        rw [hg]
      cases hm : env.manifests info.appVersion with
      | error e =>
        have h1 : releaseStage env v p ci ti (i0 + 1) log tr = .error
            { log := log ++ applyingMsg info, trace := tr, res := .fail e } := by
          rw [h0, hm]
        refine Or.inl ⟨_, [], [], h1, ?_, okTrace_nil env, targetFree_nil,
          Or.inl rfl⟩
        show tr = tr ++ [] ++ []
        simp
      | ok pm =>
        obtain ⟨pth, m⟩ := pm
        have h1 : releaseStage env v p ci ti (i0 + 1) log tr =
            (if i0 + 1 = ci then
              currentPart env m (log ++ applyingMsg info) tr
            else
              match alterPart env m (log ++ applyingMsg info) tr with
              | .error out => .error out
              | .ok (lg, tr2) =>
                if i0 + 1 = ti then targetPart env v info m lg tr2
                else svPart env info.appVersion m.dbVersion
                  (intermediateDesc m.dbVersion) info.path lg tr2) := by
          rw [h0, hm]
        by_cases hci : i0 + 1 = ci
        · have h2 : releaseStage env v p ci ti (i0 + 1) log tr =
              currentPart env m (log ++ applyingMsg info) tr := by
            rw [h1, if_pos hci]
          rcases currentPart_spec env m (log ++ applyingMsg info) tr with
            ⟨out, Δ, t, hcp, htr, hok, htf, htl⟩ | ⟨l2, Δ, hcp, hok, htf⟩
          · refine Or.inl ⟨out, Δ, t, h2.trans hcp, htr, hok,
              targetFree_of_append_left htf, ?_⟩
            rcases htl with h | ⟨c, hc⟩
            · exact Or.inl h
            · exact Or.inr (Or.inl ⟨c, hc⟩)
          · refine Or.inr ⟨l2, _, Δ, [], h2.trans hcp, ?_, hok, htf,
              Or.inl rfl, Or.inl rfl⟩
            simp
        · rcases alterPart_spec env m (log ++ applyingMsg info) tr with
            ⟨out, Δ, t, hap, htr, hok, htf, htl⟩ | ⟨l2, Δ, hap, hok, htf⟩
          · have h2 : releaseStage env v p ci ti (i0 + 1) log tr =
                .error out := by
              rw [h1, if_neg hci, hap]
            refine Or.inl ⟨out, Δ, t, h2, htr, hok,
              targetFree_of_append_left htf, ?_⟩
            rcases htl with h | ⟨c, hc⟩
            · exact Or.inl h
            · exact Or.inr (Or.inl ⟨c, hc⟩)
          · have h2 : releaseStage env v p ci ti (i0 + 1) log tr =
                (if i0 + 1 = ti then targetPart env v info m l2 (tr ++ Δ)
                 else svPart env info.appVersion m.dbVersion
                   (intermediateDesc m.dbVersion) info.path l2 (tr ++ Δ)) := by
              rw [h1, if_neg hci, hap]
            by_cases hti : i0 + 1 = ti
            · have h3 : releaseStage env v p ci ti (i0 + 1) log tr =
                  targetPart env v info m l2 (tr ++ Δ) := by
                rw [h2, if_pos hti]
              rcases targetPart_spec env v info m l2 (tr ++ Δ) with
                ⟨out, Δ2, t, htp, htr, hok2, htf2, htl⟩ |
                ⟨l3, tr2, Δ2, t, htp, htr2, hok2, htf2, htl⟩
              · refine Or.inl ⟨out, Δ ++ Δ2, t, h3.trans htp, ?_,
                  okTrace_append env Δ Δ2 hok hok2,
                  targetFree_append Δ Δ2 htf htf2, ?_⟩
                · rw [htr]
                  simp [List.append_assoc]
                · rcases htl with h | ⟨c, hc⟩ | ⟨e, he, hesv, hdep, hcl⟩
                  · exact Or.inl h
                  · exact Or.inr (Or.inl ⟨c, hc⟩)
                  · exact Or.inr (Or.inr ⟨e, he, hesv,
                      fun hne => absurd hti hne,
                      fun _ => ⟨info, m, Δ, hg, ⟨pth, hm⟩, by rw [hdep],
                        hcl⟩⟩)
              · obtain ⟨e, he, hesv, hdep, hcl⟩ := htl
                refine Or.inr ⟨l3, tr2, Δ ++ Δ2, t, h3.trans htp, ?_,
                  okTrace_append env Δ Δ2 hok hok2,
                  targetFree_append Δ Δ2 htf htf2,
                  Or.inr (Or.inr ⟨e, he, hesv, fun hne => absurd hti hne,
                    fun _ => ⟨info, m, Δ, hg, ⟨pth, hm⟩, by rw [hdep],
                      hcl⟩⟩),
                  Or.inr ⟨e, he, hesv⟩⟩
                rw [htr2]
                simp [List.append_assoc]
            · have h3 : releaseStage env v p ci ti (i0 + 1) log tr =
                  svPart env info.appVersion m.dbVersion
                    (intermediateDesc m.dbVersion) info.path l2 (tr ++ Δ) := by
                rw [h2, if_neg hti]
              rcases svPart_spec env info.appVersion m.dbVersion
                  (intermediateDesc m.dbVersion) info.path l2 (tr ++ Δ) with
                ⟨out, hsp, htr⟩ | ⟨l3, hsp⟩
              · refine Or.inl ⟨out, Δ,
                  [(setDbVersion env info.appVersion m.dbVersion
                    (intermediateDesc m.dbVersion) info.path).1],
                  h3.trans hsp, htr, hok, htf,
                  Or.inr (Or.inr ⟨_, rfl,
                    ⟨info.appVersion, m.dbVersion, intermediateDesc m.dbVersion,
                      env.repoURI ++ "/" ++ info.path, rfl⟩,
                    fun _ => not_isTargetRow_intermediate _ _ _ _,
                    fun hT => absurd hT
                      (not_isTargetRow_intermediate _ _ _ _)⟩)⟩
              · refine Or.inr ⟨l3, _, Δ,
                  [(setDbVersion env info.appVersion m.dbVersion
                    (intermediateDesc m.dbVersion) info.path).1],
                  h3.trans hsp, rfl, hok, htf,
                  Or.inr (Or.inr ⟨_, rfl,
                    ⟨info.appVersion, m.dbVersion, intermediateDesc m.dbVersion,
                      env.repoURI ++ "/" ++ info.path, rfl⟩,
                    fun _ => not_isTargetRow_intermediate _ _ _ _,
                    fun hT => absurd hT
                      (not_isTargetRow_intermediate _ _ _ _)⟩),
                  Or.inr ⟨_, rfl,
                    ⟨info.appVersion, m.dbVersion, intermediateDesc m.dbVersion,
                      env.repoURI ++ "/" ++ info.path, rfl⟩⟩⟩

theorem stageTail_targetFree {env : Env} {p : Plan} {ti i : Nat}
    {Δ t : List Event} (htl : stageTail env p ti i Δ t) (hit : i ≠ ti) :
    targetFree t := by
  rcases htl with h | ⟨c, hc⟩ | ⟨e, he, hesv, hnt, hTd⟩
  · exact h ▸ targetFree_nil
  · rw [hc]
    intro x hx hT
    rw [List.mem_singleton] at hx
    subst hx
    obtain ⟨a, d, f, t2, s, hes⟩ := hT
    cases hes
  · rw [he]
    intro x hx hT
    rw [List.mem_singleton] at hx
    subst hx
    exact hnt hit hT

theorem upgradeLoop_shape (env : Env) (v : Version) (p : Plan) (ci ti : Nat) :
    ∀ (is : List Nat) (log : String) (tr : List Event),
      ∃ Δ t, (upgradeLoop env v p ci ti is log tr).trace = tr ++ Δ ++ t ∧
        okTrace env Δ ∧ (t = [] ∨ ∃ x, t = [x]) := by
  intro is
  induction is with
  | nil =>
    intro log tr
    exact ⟨[], [], by simp [upgradeLoop], okTrace_nil env, Or.inl rfl⟩
  | cons i rest ih =>
    intro log tr
    rcases releaseStage_spec env v p ci ti i log tr with
      ⟨out, Δ, t, hrs, htr, hok, htf, htl⟩ |
      ⟨l2, tr2, Δ, t, hrs, htr2, hok, htf, htl, hsv⟩
    · have hl : upgradeLoop env v p ci ti (i :: rest) log tr = out := by
        rw [upgradeLoop, hrs]
      refine ⟨Δ, t, by rw [hl, htr], hok, ?_⟩
      rcases htl with h | ⟨c, hc⟩ | ⟨e, he, _⟩
      · exact Or.inl h
      · exact Or.inr ⟨_, hc⟩
      · exact Or.inr ⟨_, he⟩
    · have hl : upgradeLoop env v p ci ti (i :: rest) log tr =
          upgradeLoop env v p ci ti rest l2 tr2 := by
        rw [upgradeLoop, hrs]
      obtain ⟨Δ2, t2, htr3, hok2, htl2⟩ := ih l2 tr2
      have hokt : okTrace env t := by
        rcases hsv with h | ⟨e, he, a, d, x, s, hes⟩
        · exact h ▸ okTrace_nil env
        · rw [he, hes]
          exact okTrace_single_sv env a d x s
      refine ⟨Δ ++ t ++ Δ2, t2, ?_,
        okTrace_append env _ _ (okTrace_append env _ _ hok hokt) hok2, htl2⟩
      rw [hl, htr3, htr2]
      simp [List.append_assoc]

theorem upgradeLoop_targetFree (env : Env) (v : Version) (p : Plan)
    (ci ti : Nat) :
    ∀ (is : List Nat) (log : String) (tr : List Event), ti ∉ is →
      ∃ Δ, (upgradeLoop env v p ci ti is log tr).trace = tr ++ Δ ∧
        targetFree Δ := by
  intro is
  induction is with
  | nil =>
    intro log tr _
    exact ⟨[], by simp [upgradeLoop], targetFree_nil⟩
  | cons i rest ih =>
    intro log tr hni
    have hit : i ≠ ti := by
      intro h
      exact hni (by rw [← h]; exact List.mem_cons_self i rest)
    have hrt : ti ∉ rest := fun h => hni (List.mem_cons_of_mem i h)
    rcases releaseStage_spec env v p ci ti i log tr with
      ⟨out, Δ, t, hrs, htr, hok, htf, htl⟩ |
      ⟨l2, tr2, Δ, t, hrs, htr2, hok, htf, htl, hsv⟩
    · have hl : upgradeLoop env v p ci ti (i :: rest) log tr = out := by
        rw [upgradeLoop, hrs]
      refine ⟨Δ ++ t, ?_, targetFree_append Δ t htf
        (stageTail_targetFree htl hit)⟩
      rw [hl, htr, List.append_assoc]
    · have hl : upgradeLoop env v p ci ti (i :: rest) log tr =
          upgradeLoop env v p ci ti rest l2 tr2 := by
        rw [upgradeLoop, hrs]
      obtain ⟨Δ2, htr3, htf2⟩ := ih l2 tr2 hrt
      refine ⟨Δ ++ t ++ Δ2, ?_, targetFree_append _ _
        (targetFree_append Δ t htf (stageTail_targetFree htl hit)) htf2⟩
      rw [hl, htr3, htr2]
      simp [List.append_assoc]

theorem upgradeLoop_target (env : Env) (v : Version) (p : Plan)
    (ci ti : Nat) (hci : ti ≠ ci) :
    ∀ (is0 : List Nat) (log : String) (tr : List Event), ti ∉ is0 →
      (∃ Δ, (upgradeLoop env v p ci ti (is0 ++ [ti]) log tr).trace =
          tr ++ Δ ∧ targetFree Δ) ∨
      (∃ Δf e info m Δa,
         (upgradeLoop env v p ci ti (is0 ++ [ti]) log tr).trace =
           tr ++ Δf ++ [e] ∧
         targetFree Δf ∧
         p.Releases.get? (ti - 1) = some info ∧
         (∃ pth, env.manifests info.appVersion = .ok (pth, m)) ∧
         Δf = Δa ++ (m.getCommands m.upgradeDeploy).map Event.runCommand ∧
         (∀ c ∈ m.getCommands m.upgradeDeploy, env.cmdFails c = false)) := by
  intro is0
  induction is0 with
  | nil =>
    intro log tr _
    rw [List.nil_append]
    rcases releaseStage_spec env v p ci ti ti log tr with
      ⟨out, Δ, t, hrs, htr, hok, htf, htl⟩ |
      ⟨l2, tr2, Δ, t, hrs, htr2, hok, htf, htl, hsv⟩
    · have hl : upgradeLoop env v p ci ti [ti] log tr = out := by
        rw [upgradeLoop, hrs]
      rcases htl with htnil | ⟨c, hc⟩ | ⟨e, he, hesv, hnt, hTd⟩
      · refine Or.inl ⟨Δ, ?_, htf⟩
        rw [hl, htr, htnil, List.append_nil]
      · refine Or.inl ⟨Δ ++ [Event.runCommand c], ?_, ?_⟩
        · rw [hl, htr, hc, List.append_assoc]
        · refine targetFree_append Δ _ htf ?_
          intro x hx hT
          rw [List.mem_singleton] at hx
          subst hx
          obtain ⟨a, d, f, t2, s, hes⟩ := hT
          cases hes
      · by_cases hT : isTargetRow e
        · obtain ⟨info, m, Δa, hg2, hm2, hΔ, hcl⟩ := hTd hT
          refine Or.inr ⟨Δ, e, info, m, Δa, ?_, htf, hg2, hm2, hΔ, hcl⟩
          rw [hl, htr, he]
        · refine Or.inl ⟨Δ ++ [e], ?_, ?_⟩
          · rw [hl, htr, he, List.append_assoc]
          · refine targetFree_append Δ [e] htf ?_
            intro x hx
            rw [List.mem_singleton] at hx
            subst hx
            exact hT
    · have hl : (upgradeLoop env v p ci ti [ti] log tr).trace = tr2 := by
        rw [upgradeLoop, hrs]
        rfl
      rcases htl with htnil | ⟨c, hc⟩ | ⟨e, he, hesv, hnt, hTd⟩
      · refine Or.inl ⟨Δ, ?_, htf⟩
        rw [hl, htr2, htnil, List.append_nil]
      · rcases hsv with h | ⟨e, he, a, d, x, s, hes⟩
        · rw [h] at hc
          cases hc
        · rw [he] at hc
          rw [List.cons.injEq] at hc
          rw [hc.1] at hes
          cases hes
      · by_cases hT : isTargetRow e
        · obtain ⟨info, m, Δa, hg2, hm2, hΔ, hcl⟩ := hTd hT
          refine Or.inr ⟨Δ, e, info, m, Δa, ?_, htf, hg2, hm2, hΔ, hcl⟩
          rw [hl, htr2, he]
        · refine Or.inl ⟨Δ ++ [e], ?_, ?_⟩
          · rw [hl, htr2, he, List.append_assoc]
          · refine targetFree_append Δ [e] htf ?_
            intro x hx
            rw [List.mem_singleton] at hx
            subst hx
            exact hT
  | cons i rest ih =>
    intro log tr hni
    have hit : i ≠ ti := by
      intro h
      exact hni (by rw [← h]; exact List.mem_cons_self i rest)
    have hrt : ti ∉ rest := fun h => hni (List.mem_cons_of_mem i h)
    rcases releaseStage_spec env v p ci ti i log tr with
      ⟨out, Δ, t, hrs, htr, hok, htf, htl⟩ |
      ⟨l2, tr2, Δ, t, hrs, htr2, hok, htf, htl, hsv⟩
    · have hl : upgradeLoop env v p ci ti ((i :: rest) ++ [ti]) log tr =
          out := by
        rw [List.cons_append, upgradeLoop, hrs]
      refine Or.inl ⟨Δ ++ t, ?_, targetFree_append Δ t htf
        (stageTail_targetFree htl hit)⟩
      rw [hl, htr, List.append_assoc]
    · have hl : upgradeLoop env v p ci ti ((i :: rest) ++ [ti]) log tr =
          upgradeLoop env v p ci ti (rest ++ [ti]) l2 tr2 := by
        rw [List.cons_append, upgradeLoop, hrs]
      have htf1 : targetFree (Δ ++ t) :=
        targetFree_append Δ t htf (stageTail_targetFree htl hit)
      rcases ih l2 tr2 hrt with ⟨Δ2, htr3, htf2⟩ |
        ⟨Δf, e, info, m, Δa, htr3, htff, hg2, hm2, hΔ, hcl⟩
      · refine Or.inl ⟨Δ ++ t ++ Δ2, ?_,
          targetFree_append _ _ htf1 htf2⟩
        rw [hl, htr3, htr2]
        simp [List.append_assoc]
      · refine Or.inr ⟨Δ ++ t ++ Δf, e, info, m, Δ ++ t ++ Δa, ?_,
          targetFree_append _ _ htf1 htff, hg2, hm2, ?_, hcl⟩
        · rw [hl, htr3, htr2]
          simp [List.append_assoc]
        · simp [hΔ, List.append_assoc]

theorem Upgrade_cases (env : Env) :
    (Upgrade env).trace = [] ∨
    ∃ version p, GetVersion env.getVersionEnv = .ok (some version) ∧
      env.plan = .ok p ∧
      (getUpgradeWindow p version.AppVersion env.appVersion).1 <
        (getUpgradeWindow p version.AppVersion env.appVersion).2 ∧
      (Upgrade env).trace =
        (upgradeLoop env version p
          (getUpgradeWindow p version.AppVersion env.appVersion).1
          (getUpgradeWindow p version.AppVersion env.appVersion).2
          (List.range'
            (getUpgradeWindow p version.AppVersion env.appVersion).1
            ((getUpgradeWindow p version.AppVersion env.appVersion).2 + 1 -
              (getUpgradeWindow p version.AppVersion env.appVersion).1))
          "" []).trace := by
  cases hv : GetVersion env.getVersionEnv with
  | error pm =>
    have h : Upgrade env = { log := "", trace := [], res := .panic pm } := by
      unfold Upgrade
      rw [hv]
    exact Or.inl (by rw [h])
  | ok vOpt =>
    cases hE : ErrorP env.getVersionEnv with
    | error pm =>
      have h : Upgrade env = { log := "", trace := [], res := .panic pm } := by
        unfold Upgrade
        rw [hv, hE]
      exact Or.inl (by rw [h])
    | ok oe =>
      cases oe with
      | some e =>
        have h : Upgrade env = { log := "", trace := [], res := .fail e } := by
          unfold Upgrade
          rw [hv, hE]
        exact Or.inl (by rw [h])
      | none =>
        cases vOpt with
        | none =>
          have h : Upgrade env =
              { log := "", trace := []
                res := .fail "!!! the database does not exist\n" } := by
            unfold Upgrade
            rw [hv, hE]
          exact Or.inl (by rw [h])
        | some version =>
          cases hp : env.plan with
          | error e =>
            have h : Upgrade env = { log := "", trace := [], res := .fail e } := by
              unfold Upgrade
              rw [hv, hE, hp]
            exact Or.inl (by rw [h])
          | ok p =>
            have h0 : Upgrade env =
                (if env.appVersion = version.AppVersion then
                  { log := noopMsg version.AppVersion, trace := [], res := .ok }
                else
                  if (getUpgradeWindow p version.AppVersion env.appVersion).2 ≤
                      (getUpgradeWindow p version.AppVersion env.appVersion).1
                  then
                    { log := ""
                      trace := []
                      res := .fail (cannotUpgradeMsg env.appVersion
                        version.AppVersion) }
                  else
                    upgradeLoop env version p
                      (getUpgradeWindow p version.AppVersion env.appVersion).1
                      (getUpgradeWindow p version.AppVersion env.appVersion).2
                      (List.range'
                        (getUpgradeWindow p version.AppVersion
                          env.appVersion).1
                        ((getUpgradeWindow p version.AppVersion
                          env.appVersion).2 + 1 -
                          (getUpgradeWindow p version.AppVersion
                            env.appVersion).1))
                      "" []) := by
              unfold Upgrade
              rw [hv, hE, hp]
            by_cases hne : env.appVersion = version.AppVersion
            · have h : Upgrade env =
                  { log := noopMsg version.AppVersion, trace := []
                    res := .ok } := by
                rw [h0, if_pos hne]
              exact Or.inl (by rw [h])
            · by_cases hw :
                  (getUpgradeWindow p version.AppVersion env.appVersion).2 ≤
                    (getUpgradeWindow p version.AppVersion env.appVersion).1
              · have h : Upgrade env =
                    { log := ""
                      trace := []
                      res := .fail (cannotUpgradeMsg env.appVersion
                        version.AppVersion) } := by
                  rw [h0, if_neg hne, if_pos hw]
                exact Or.inl (by rw [h])
              · have h : Upgrade env =
                    upgradeLoop env version p
                      (getUpgradeWindow p version.AppVersion env.appVersion).1
                      (getUpgradeWindow p version.AppVersion env.appVersion).2
                      (List.range'
                        (getUpgradeWindow p version.AppVersion
                          env.appVersion).1
                        ((getUpgradeWindow p version.AppVersion
                          env.appVersion).2 + 1 -
                          (getUpgradeWindow p version.AppVersion
                            env.appVersion).1))
                      "" [] := by
                  rw [h0, if_neg hne, if_neg hw]
                exact Or.inr ⟨version, p, rfl, rfl, by omega, by rw [h]⟩

theorem Deploy_shape (env : Env) :
    (∀ e ∈ (Deploy env).trace, ¬ isSetVersion e) ∨
    (∃ pth m e, env.manifests env.appVersion = .ok (pth, m) ∧
       (Deploy env).trace = m.deployCommands.map Event.runCommand ++ [e] ∧
       isSetVersion e ∧
       ∀ c ∈ m.deployCommands, env.cmdFails c = false) := by
  cases hE : HasError env.getVersionEnv with
  | false =>
    have h0 : Deploy env =
        (match GetString env.getVersionEnv "dbVersion" with
         | .error pm => { log := "", trace := [], res := .panic pm }
         | .ok dv =>
           match GetString env.getVersionEnv "appVersion" with
           | .error pm => { log := "", trace := [], res := .panic pm }
           | .ok av =>
             { log := "", trace := []
               res := .fail (alreadyExistsMsgDeploy dv av) }) := by
      unfold Deploy
      rw [hE]
      rfl
    cases hg1 : GetString env.getVersionEnv "dbVersion" with
    | error pm =>
      have h : Deploy env = { log := "", trace := [], res := .panic pm } := by
        rw [h0, hg1]
      refine Or.inl ?_
      rw [h]
      intro e he
      cases he
    | ok dv =>
      cases hg2 : GetString env.getVersionEnv "appVersion" with
      | error pm =>
        have h : Deploy env = { log := "", trace := [], res := .panic pm } := by
          rw [h0, hg1, hg2]
        refine Or.inl ?_
        rw [h]
        intro e he
        cases he
      | ok av =>
        have h : Deploy env =
            { log := "", trace := []
              res := .fail (alreadyExistsMsgDeploy dv av) } := by
          rw [h0, hg1, hg2]
        refine Or.inl ?_
        rw [h]
        intro e he
        cases he
  | true =>
    have h0 : Deploy env =
        (match env.manifests env.appVersion with
         | .error e => { log := "", trace := [], res := .fail e }
         | .ok (path, m) =>
           match (runCommands env m.deployCommands).2.2 with
           | some e => { log := (runCommands env m.deployCommands).1
                         trace := (runCommands env m.deployCommands).2.1
                         res := .fail e }
           | none =>
             match (setDbVersion env env.appVersion m.dbVersion
                 ("Created database version " ++ m.dbVersion) path).2 with
             | some e =>
               { log := (runCommands env m.deployCommands).1 ++
                   "? I am updating the release version history\n"
                 trace := (runCommands env m.deployCommands).2.1 ++
                   [(setDbVersion env env.appVersion m.dbVersion
                     ("Created database version " ++ m.dbVersion) path).1]
                 res := .fail e }
             | none =>
               { log := (runCommands env m.deployCommands).1
                 trace := (runCommands env m.deployCommands).2.1 ++
                   [(setDbVersion env env.appVersion m.dbVersion
                     ("Created database version " ++ m.dbVersion) path).1]
                 res := .ok }) := by
      unfold Deploy
      rw [hE]
      rfl
    cases hm : env.manifests env.appVersion with
    | error e =>
      have h : Deploy env = { log := "", trace := [], res := .fail e } := by
        rw [h0, hm]
      refine Or.inl ?_
      rw [h]
      intro x hx
      cases hx
    | ok pm =>
      obtain ⟨pth, m⟩ := pm
      have h1 : Deploy env =
          (match (runCommands env m.deployCommands).2.2 with
           | some e => { log := (runCommands env m.deployCommands).1
                         trace := (runCommands env m.deployCommands).2.1
                         res := .fail e }
           | none =>
             match (setDbVersion env env.appVersion m.dbVersion
                 ("Created database version " ++ m.dbVersion) pth).2 with
             | some e =>
               { log := (runCommands env m.deployCommands).1 ++
                   "? I am updating the release version history\n"
                 trace := (runCommands env m.deployCommands).2.1 ++
                   [(setDbVersion env env.appVersion m.dbVersion
                     ("Created database version " ++ m.dbVersion) pth).1]
                 res := .fail e }
             | none =>
               { log := (runCommands env m.deployCommands).1
                 trace := (runCommands env m.deployCommands).2.1 ++
                   [(setDbVersion env env.appVersion m.dbVersion
                     ("Created database version " ++ m.dbVersion) pth).1]
                 res := .ok }) := by
        rw [h0, hm]
      cases hr : (runCommands env m.deployCommands).2.2 with
      | some e =>
        have h : Deploy env =
            { log := (runCommands env m.deployCommands).1
              trace := (runCommands env m.deployCommands).2.1
              res := .fail e } := by
          rw [h1, hr]
        refine Or.inl ?_
        rw [h]
        exact not_sv_runTrace env m.deployCommands
      | none =>
        obtain ⟨hmap, hclean⟩ := runCommands_ok env _ hr
        cases hsv : (setDbVersion env env.appVersion m.dbVersion
            ("Created database version " ++ m.dbVersion) pth).2 with
        | some e2 =>
          have h : Deploy env =
              { log := (runCommands env m.deployCommands).1 ++
                  "? I am updating the release version history\n"
                trace := (runCommands env m.deployCommands).2.1 ++
                  [(setDbVersion env env.appVersion m.dbVersion
                    ("Created database version " ++ m.dbVersion) pth).1]
                res := .fail e2 } := by
            rw [h1, hr, hsv]
          refine Or.inr ⟨pth, m, _, rfl, ?_, ⟨env.appVersion, m.dbVersion,
            "Created database version " ++ m.dbVersion,
            env.repoURI ++ "/" ++ pth, rfl⟩, hclean⟩
          rw [h]
          show (runCommands env m.deployCommands).2.1 ++ _ = _
          rw [hmap]
          rfl
        | none =>
          have h : Deploy env =
              { log := (runCommands env m.deployCommands).1
                trace := (runCommands env m.deployCommands).2.1 ++
                  [(setDbVersion env env.appVersion m.dbVersion
                    ("Created database version " ++ m.dbVersion) pth).1]
                res := .ok } := by
            rw [h1, hr, hsv]
          refine Or.inr ⟨pth, m, _, rfl, ?_, ⟨env.appVersion, m.dbVersion,
            "Created database version " ++ m.dbVersion,
            env.repoURI ++ "/" ++ pth, rfl⟩, hclean⟩
          rw [h]
          show (runCommands env m.deployCommands).2.1 ++ _ = _
          rw [hmap]
          rfl

/-- C6: in every `Deploy` and `Upgrade` execution a version-history
write happens only after the command batch of its stage has run without
error.  (Deploy) a `SetVersion` event in the trace is the final event,
directly preceded by the full deploy batch of the fetched manifest, all
of whose commands succeeded.  (Upgrade) every event before a
`SetVersion` event is clean; a failing command is always the final
trace event, so the action aborts with no further history row; and a
target version-history row is the final event, written only directly
after the target release manifest's full `upgrade.deploy` batch, all of
whose commands succeeded. -/
theorem claim_C6_history_after_clean_batch (env : Env) :
    (∀ pre e post, (Deploy env).trace = pre ++ e :: post → isSetVersion e →
       post = [] ∧ ∃ pth m, env.manifests env.appVersion = .ok (pth, m) ∧
         pre = m.deployCommands.map Event.runCommand ∧
         ∀ c ∈ m.deployCommands, env.cmdFails c = false) ∧
    (∀ pre e post, (Upgrade env).trace = pre ++ e :: post → isSetVersion e →
       ∀ x ∈ pre, cleanEvent env x) ∧
    (∀ pre c post, (Upgrade env).trace = pre ++ Event.runCommand c :: post →
       env.cmdFails c = true → post = []) ∧
    (∀ pre e post, (Upgrade env).trace = pre ++ e :: post → isTargetRow e →
       post = [] ∧
       ∃ version p ci ti info pth m pre2,
         GetVersion env.getVersionEnv = .ok (some version) ∧
         env.plan = .ok p ∧
         getUpgradeWindow p version.AppVersion env.appVersion = (ci, ti) ∧
         p.Releases.get? (ti - 1) = some info ∧
         env.manifests info.appVersion = .ok (pth, m) ∧
         pre = pre2 ++ (m.getCommands m.upgradeDeploy).map Event.runCommand ∧
         ∀ c ∈ m.getCommands m.upgradeDeploy, env.cmdFails c = false) := by
  refine ⟨?_, ?_, ?_, ?_⟩
  · -- Deploy
    intro pre e post h hsv
    rcases Deploy_shape env with hno | ⟨pth, m, e2, hm, htr, hsv2, hclean⟩
    · exact absurd hsv (hno e (by
        rw [h]
        exact List.mem_append_right pre (List.mem_cons_self e post)))
    · rw [htr] at h
      rcases split_last_sub _ _ _ _ _ h with ⟨hmem, hpre⟩ |
        ⟨hpre, hee, hpost⟩
      · exact absurd hsv (not_sv_map_run m.deployCommands e hmem)
      · exact ⟨hpost, pth, m, hm, hpre, hclean⟩
  · -- Upgrade: clean prefix before any version-history write
    intro pre e post h hsv
    rcases Upgrade_cases env with h0 | ⟨version, p, hv, hp, hw, htr⟩
    · rw [h0] at h
      exact absurd h (by cases pre <;> simp)
    · rw [htr] at h
      obtain ⟨Δ, t, hsh, hok, htl⟩ := upgradeLoop_shape env version p
        (getUpgradeWindow p version.AppVersion env.appVersion).1
        (getUpgradeWindow p version.AppVersion env.appVersion).2
        (List.range'
          (getUpgradeWindow p version.AppVersion env.appVersion).1
          ((getUpgradeWindow p version.AppVersion env.appVersion).2 + 1 -
            (getUpgradeWindow p version.AppVersion env.appVersion).1))
        "" []
      rw [hsh, List.nil_append] at h
      rcases htl with ht | ⟨x, hx⟩
      · rw [ht, List.append_nil] at h
        intro y hy
        exact hok y (by
          rw [h]
          exact List.mem_append_left _ hy)
      · rw [hx] at h
        rcases split_last_sub _ _ _ _ _ h with ⟨hmem, hpre⟩ |
          ⟨hpre, hee, hpost⟩
        · intro y hy
          exact hok y (hpre y hy)
        · intro y hy
          exact hok y (hpre ▸ hy)
  · -- Upgrade: a failing command is the final event
    intro pre c post h hc
    rcases Upgrade_cases env with h0 | ⟨version, p, hv, hp, hw, htr⟩
    · rw [h0] at h
      exact absurd h (by cases pre <;> simp)
    · rw [htr] at h
      obtain ⟨Δ, t, hsh, hok, htl⟩ := upgradeLoop_shape env version p
        (getUpgradeWindow p version.AppVersion env.appVersion).1
        (getUpgradeWindow p version.AppVersion env.appVersion).2
        (List.range'
          (getUpgradeWindow p version.AppVersion env.appVersion).1
          ((getUpgradeWindow p version.AppVersion env.appVersion).2 + 1 -
            (getUpgradeWindow p version.AppVersion env.appVersion).1))
        "" []
      rw [hsh, List.nil_append] at h
      rcases htl with ht | ⟨x, hx⟩
      · rw [ht, List.append_nil] at h
        have hclean : env.cmdFails c = false := hok _ (by
          rw [h]
          exact List.mem_append_right pre (List.mem_cons_self _ _)) c rfl
        rw [hclean] at hc
        cases hc
      · rw [hx] at h
        rcases split_last_sub _ _ _ _ _ h with ⟨hmem, hpre⟩ |
          ⟨hpre, hee, hpost⟩
        · have hclean : env.cmdFails c = false := hok _ hmem c rfl
          rw [hclean] at hc
          cases hc
        · exact hpost
  · -- Upgrade: the target row ends the trace, after the deploy batch
    intro pre e post h hT
    rcases Upgrade_cases env with h0 | ⟨version, p, hv, hp, hw, htr⟩
    · rw [h0] at h
      exact absurd h (by cases pre <;> simp)
    · rw [htr] at h
      have hconcat : List.range'
          (getUpgradeWindow p version.AppVersion env.appVersion).1
          ((getUpgradeWindow p version.AppVersion env.appVersion).2 + 1 -
            (getUpgradeWindow p version.AppVersion env.appVersion).1) =
          List.range'
            (getUpgradeWindow p version.AppVersion env.appVersion).1
            ((getUpgradeWindow p version.AppVersion env.appVersion).2 -
              (getUpgradeWindow p version.AppVersion env.appVersion).1) ++
          [(getUpgradeWindow p version.AppVersion env.appVersion).2] := by
        have h1 : (getUpgradeWindow p version.AppVersion env.appVersion).2 +
            1 - (getUpgradeWindow p version.AppVersion env.appVersion).1 =
            ((getUpgradeWindow p version.AppVersion env.appVersion).2 -
              (getUpgradeWindow p version.AppVersion env.appVersion).1) +
            1 := by
          omega
        rw [h1, List.range'_1_concat]
        have h2 : (getUpgradeWindow p version.AppVersion env.appVersion).1 +
            ((getUpgradeWindow p version.AppVersion env.appVersion).2 -
              (getUpgradeWindow p version.AppVersion env.appVersion).1) =
            (getUpgradeWindow p version.AppVersion env.appVersion).2 := by
          omega
        rw [h2]
      have hnm : (getUpgradeWindow p version.AppVersion env.appVersion).2 ∉
          List.range'
            (getUpgradeWindow p version.AppVersion env.appVersion).1
            ((getUpgradeWindow p version.AppVersion env.appVersion).2 -
              (getUpgradeWindow p version.AppVersion env.appVersion).1) := by
        intro hm2
        rw [List.mem_range'_1] at hm2
        omega
      rw [hconcat] at h
      rcases upgradeLoop_target env version p
          (getUpgradeWindow p version.AppVersion env.appVersion).1
          (getUpgradeWindow p version.AppVersion env.appVersion).2
          (by omega)
          (List.range'
            (getUpgradeWindow p version.AppVersion env.appVersion).1
            ((getUpgradeWindow p version.AppVersion env.appVersion).2 -
              (getUpgradeWindow p version.AppVersion env.appVersion).1))
          "" [] hnm with
        ⟨Δ, htr2, htf⟩ | ⟨Δf, e2, info, m, Δa, htr2, htff, hg2, ⟨pth, hm2⟩,
          hΔ, hcl⟩
      · have h2 := htr2.symm.trans h
        rw [List.nil_append] at h2
        exact absurd hT (htf e (by
          rw [h2]
          exact List.mem_append_right pre (List.mem_cons_self e post)))
      · have h2 := htr2.symm.trans h
        rw [List.nil_append] at h2
        rcases split_last_sub _ _ _ _ _ h2 with ⟨hmem, hpre⟩ |
          ⟨hpre, hee, hpost⟩
        · exact absurd hT (htff e hmem)
        · refine ⟨hpost, version, p,
            (getUpgradeWindow p version.AppVersion env.appVersion).1,
            (getUpgradeWindow p version.AppVersion env.appVersion).2,
            info, pth, m, Δa, hv, hp, rfl, hg2, hm2, ?_, hcl⟩
          rw [hpre, hΔ]

/-- Witness for C6: in the three-release environment upgrading from v1
to v3, the target row of the trace is the final event and the theorem
locates the v3 manifest's `upgrade.deploy` batch directly before it. -/
theorem claim_C6_history_after_clean_batch_witness :
    (Upgrade fixtures.upgradeRunEnv).trace =
      [Event.runCommand "prep-v1-c1", Event.runCommand "alt-v2-c1",
       Event.setVersion "v2" "db-v2"
         "Updated database schema only to version db-v2" "http://r/p2",
       Event.runCommand "alt-v3-c1", Event.runCommand "udep-v3-c1"] ++
      Event.setVersion "v3" "db-v3"
        "Upgraded database from version 1 to db-v3" "http://r/p3" :: [] ∧
    isTargetRow (Event.setVersion "v3" "db-v3"
      "Upgraded database from version 1 to db-v3" "http://r/p3") ∧
    (([] : List Event) = [] ∧
     ∃ (version : plugin.Version) (p : Plan) (ci ti : Nat) (info : Release)
       (pth : String) (m : Manifest) (pre2 : List Event),
       GetVersion fixtures.upgradeRunEnv.getVersionEnv =
         .ok (some version) ∧
       fixtures.upgradeRunEnv.plan = .ok p ∧
       getUpgradeWindow p version.AppVersion
         fixtures.upgradeRunEnv.appVersion = (ci, ti) ∧
       p.Releases.get? (ti - 1) = some info ∧
       fixtures.upgradeRunEnv.manifests info.appVersion = .ok (pth, m) ∧
       [Event.runCommand "prep-v1-c1", Event.runCommand "alt-v2-c1",
        Event.setVersion "v2" "db-v2"
          "Updated database schema only to version db-v2" "http://r/p2",
        Event.runCommand "alt-v3-c1", Event.runCommand "udep-v3-c1"] =
         pre2 ++ (m.getCommands m.upgradeDeploy).map Event.runCommand ∧
       ∀ c ∈ m.getCommands m.upgradeDeploy,
         fixtures.upgradeRunEnv.cmdFails c = false) :=
  ⟨by rfl,
   ⟨"v3", "db-v3", "1", "db-v3", "http://r/p3", by rfl⟩,
   (claim_C6_history_after_clean_batch fixtures.upgradeRunEnv).2.2.2
     [Event.runCommand "prep-v1-c1", Event.runCommand "alt-v2-c1",
      Event.setVersion "v2" "db-v2"
        "Updated database schema only to version db-v2" "http://r/p2",
      Event.runCommand "alt-v3-c1", Event.runCommand "udep-v3-c1"]
     (Event.setVersion "v3" "db-v3"
       "Upgraded database from version 1 to db-v3" "http://r/p3")
     []
     (by rfl)
     ⟨"v3", "db-v3", "1", "db-v3", "http://r/p3", by rfl⟩⟩

end core
